import Mathlib

/-! # Hot-reloadable shaders: the watch engine of `HotReloadableShaders.h`

A shallow embedding of the class `HotReloadableShades` and of the free functions
`FileTimeToUInt64` and `ReadFile`.

* The engine object is the record `HotReloadableShades`.
* Everything outside the engine (file system, HLSL compiler, D3D11 device, the host's
  callback) is a record `Host W` of transition functions over an arbitrary world type `W`:
  every external call takes the current world and returns its result with the next world,
  so the same call may answer differently each time it is made.
* Every external call is also appended to a ghost `trace`, which is how "no read is
  issued", "released exactly once" or "the callback ran once" are stated.
* Pointers (`const char*` keys, COM objects, handles) are natural numbers; a null pointer,
  an `INVALID_HANDLE_VALUE` or a failed `HRESULT` is `none`.
* The callback is code of the host: it sees the engine through its getters and may change
  the world; it does not call the mutating methods of the engine from inside the cycle.
-/

namespace HotReload

/-! ## Data model -/

/-- The enum class `HotReloadableShaderType`. -/
inductive HotReloadableShaderType where
  | VertexShader
  | PixelShader
deriving DecidableEq, Repr

/-- The struct `CompiledQueue`: one compile event. -/
structure CompiledQueue where
  compiledShaderType : HotReloadableShaderType
deriving DecidableEq, Repr

/-- A `const char*` used as a name: `std::map<const char*, _>` orders and compares the
address, `strcmp` compares the characters. -/
structure CStr where
  addr : Nat
  text : String
deriving DecidableEq, Repr

/-- The nested struct `ShaderInformation::D3DRenderDevices`. -/
structure D3DRenderDevices where
  mRenderDevice : Nat
  mRenderDeviceContext : Nat
deriving DecidableEq, Repr

/-- The struct `ShaderInformation`. The strings that are only handed to the operating
system or to the compiler are kept by content. -/
structure ShaderInformation where
  localName : CStr
  localShaderType : HotReloadableShaderType
  shaderVersion : String
  entryPoint : String
  hlslPath : String
  bSaveToCSO : Bool
  isAutomationBind : Bool
  mLastWriteTime : Int
  renderDevices : D3DRenderDevices
deriving DecidableEq, Repr

/-- The Win32 `FILETIME`: two `DWORD`s. -/
structure FILETIME where
  dwLowDateTime : Nat
  dwHighDateTime : Nat
deriving DecidableEq, Repr

/-- What the public getters return at one moment; it is what a callback can observe. -/
structure Observed where
  isCompiled : Bool
  compiledShadersType : List CompiledQueue
  compiledPixelShader : Option Nat
  compiledVertexShader : Option Nat
deriving DecidableEq, Repr

/-- The data members of the class `HotReloadableShades`. `mTimeChanged` is a
`std::map<const char*, unsigned long long>` that is only ever accessed through
`operator[]`, which value-initialises a missing key to `0`: a total function on addresses.
The slots hold a COM pointer or `nullptr`; the callback is a `std::function`, empty or
holding the host's function object. -/
structure HotReloadableShades where
  mShadersInformation : List ShaderInformation
  mCompiledShaders : List CompiledQueue
  mTimeChanged : Nat → Nat
  bIsCompiled : Bool
  mCompiledPixelShader : Option Nat
  mCompiledVertexShader : Option Nat
  mCustomCallbackWhenShadersIsCompiled : Option Nat

/-- One external call, as recorded in the ghost trace. The two calls that create a shader
object are recorded with their answer. -/
inductive Call where
  | FindFirstFileA (path : String)
  | FindClose (handle : Nat)
  | CreateFileA (filename : String)
  | GetFileSizeEx (hFile : Nat)
  | ReadFile (hFile : Nat) (nNumberOfBytesToRead : Nat)
  | CloseHandle (hFile : Nat)
  | printfReadFailed (filename : String) (attempts : Nat)
  | D3DCompile (src : List Nat) (entryPoint : String) (target : String)
  | printfCompileFailed (hlslPath : String) (error : Nat)
  | Release (object : Nat)
  | CreateVertexShader (device : Nat) (blob : Nat) (created : Option Nat)
  | CreatePixelShader (device : Nat) (blob : Nat) (created : Option Nat)
  | Callback (fn : Nat) (seen : Observed)
deriving DecidableEq, Repr

/-- The world outside the engine. Each field is one external call: it reads the world,
answers, and leaves the next world.

* `FindFirstFileA` answers the search handle and `findData.ftLastWriteTime`, or
  `INVALID_HANDLE_VALUE`;
* `GetFileSizeEx` answers `fileSize.QuadPart`, or fails;
* `ReadFile` answers the bytes it stored into the buffer, or fails;
* `D3DCompile` answers the shader blob, or fails with the error blob (possibly null);
* `CreateVertexShader`/`CreatePixelShader` answer the new shader object, or fail leaving
  the out-pointer as it was;
* `callback` runs the host's function object, which sees the getters. -/
structure Host (W : Type) where
  FindFirstFileA : String → W → Option (Nat × FILETIME) × W
  FindClose : Nat → W → W
  CreateFileA : String → W → Option Nat × W
  GetFileSizeEx : Nat → W → Option Nat × W
  ReadFile : Nat → Nat → W → Option (List Nat) × W
  CloseHandle : Nat → W → W
  D3DCompile : List Nat → String → String → W → Except (Option Nat) Nat × W
  Release : Nat → W → W
  CreateVertexShader : Nat → Nat → W → Option Nat × W
  CreatePixelShader : Nat → Nat → W → Option Nat × W
  callback : Nat → Observed → W → W

/-- A running program: the engine object, the world, and the calls made so far. -/
structure St (W : Type) where
  eng : HotReloadableShades
  world : W
  trace : List Call

variable {W : Type}

/-- Record the call `c`, which left the world `w`. -/
def St.call (s : St W) (c : Call) (w : W) : St W :=
  { s with world := w, trace := s.trace ++ [c] }

/-- The calls made between the state `s` and the later state `t`. -/
def callsSince (s t : St W) : List Call :=
  t.trace.drop s.trace.length

/-! ## The engine -/

/-- The constructor `HotReloadableShades::HotReloadableShades()`. -/
def HotReloadableShades.new : HotReloadableShades where
  mShadersInformation := []
  mCompiledShaders := []
  mTimeChanged := fun _ => 0
  bIsCompiled := false
  mCompiledPixelShader := none
  mCompiledVertexShader := none
  mCustomCallbackWhenShadersIsCompiled := none

/-- The method `AddNewBundle`: push the descriptor, reset its timestamp to `0`. -/
def AddNewBundle (e : HotReloadableShades) (information : ShaderInformation) :
    HotReloadableShades :=
  { e with
    mShadersInformation := e.mShadersInformation ++ [information]
    mTimeChanged := Function.update e.mTimeChanged information.localName.addr 0 }

/-- The method `GetShaderInformationByLocalName`: first descriptor whose name
`strcmp`s equal. -/
def GetShaderInformationByLocalName (e : HotReloadableShades) (localName : String) :
    Option ShaderInformation :=
  e.mShadersInformation.find? (fun info => info.localName.text == localName)

/-- The method `IsCompiled`. -/
def IsCompiled (e : HotReloadableShades) : Bool := e.bIsCompiled

/-- The method `GetCompiledShadersType`. -/
def GetCompiledShadersType (e : HotReloadableShades) : List CompiledQueue :=
  e.mCompiledShaders

/-- The method `GetCompiledPixelShader`. -/
def GetCompiledPixelShader (e : HotReloadableShades) : Option Nat :=
  e.mCompiledPixelShader

/-- The method `GetCompiledVertexShader`. -/
def GetCompiledVertexShader (e : HotReloadableShades) : Option Nat :=
  e.mCompiledVertexShader

/-- The method `ActionIfCompiled`: the last registration wins; an empty `std::function`
is `none`. -/
def ActionIfCompiled (e : HotReloadableShades) (callback : Option Nat) :
    HotReloadableShades :=
  { e with mCustomCallbackWhenShadersIsCompiled := callback }

/-- The getters, as seen from outside at one moment. -/
def observe (e : HotReloadableShades) : Observed where
  isCompiled := IsCompiled e
  compiledShadersType := GetCompiledShadersType e
  compiledPixelShader := GetCompiledPixelShader e
  compiledVertexShader := GetCompiledVertexShader e

/-- The function `FileTimeToUInt64`: the two `DWORD`s as one 64-bit number. -/
def FileTimeToUInt64 (ft : FILETIME) : Nat :=
  ft.dwLowDateTime % 2 ^ 32 + (ft.dwHighDateTime % 2 ^ 32) * 2 ^ 32

/-- The bound `maxAttempts` of `ReadFile`. -/
def maxAttempts : Nat := 5

/-- The buffer after `buffer.resize(size)` on the empty vector (all zero) and a read that
stored `data`, at most `(DWORD)size` bytes, at its start. -/
def fillBuffer (size : Nat) (data : List Nat) : List Nat :=
  let stored := data.take (size % 2 ^ 32)
  stored ++ List.replicate (size - stored.length) 0

/-- The `for` loop of `ReadFile` with `fuel = maxAttempts - i` iterations left; `attempts`
is the counter of the same name. The handle is not closed on the zero-size path, as in
the source. -/
def ReadFileLoop (h : Host W) (filename : String) :
    Nat → Nat → St W → Option (List Nat) × St W
  | 0, attempts, s => (none, s.call (.printfReadFailed filename attempts) s.world)
  | fuel + 1, attempts, s =>
    match h.CreateFileA filename s.world with
    | (none, w1) => (none, s.call (.CreateFileA filename) w1)
    | (some hFile, w1) =>
      let s1 := s.call (.CreateFileA filename) w1
      match h.GetFileSizeEx hFile s1.world with
      | (none, w2) =>
        let s2 := s1.call (.GetFileSizeEx hFile) w2
        (none, s2.call (.CloseHandle hFile) (h.CloseHandle hFile s2.world))
      | (some size, w2) =>
        let s2 := s1.call (.GetFileSizeEx hFile) w2
        if size = 0 then
          ReadFileLoop h filename fuel (attempts + 1) s2
        else
          match h.ReadFile hFile (size % 2 ^ 32) s2.world with
          | (none, w3) =>
            let s3 := s2.call (.ReadFile hFile (size % 2 ^ 32)) w3
            (none, s3.call (.CloseHandle hFile) (h.CloseHandle hFile s3.world))
          | (some data, w3) =>
            let s3 := s2.call (.ReadFile hFile (size % 2 ^ 32)) w3
            (some (fillBuffer size data),
              s3.call (.CloseHandle hFile) (h.CloseHandle hFile s3.world))

/-- The function `ReadFile(filename, buffer)`: `some buffer` when it returns `true`. -/
def ReadFile (h : Host W) (filename : String) (s : St W) : Option (List Nat) × St W :=
  ReadFileLoop h filename maxAttempts 0 s

/-- The method `CreatePixelShader`. -/
def CreatePixelShader (h : Host W) (info : ShaderInformation) (shader : Nat) (s : St W) :
    Bool × St W :=
  let s1 : St W :=
    match s.eng.mCompiledPixelShader with
    | some old =>
      { (s.call (.Release old) (h.Release old s.world)) with
        eng := { s.eng with mCompiledPixelShader := none } }
    | none => s
  match h.CreatePixelShader info.renderDevices.mRenderDevice shader s1.world with
  | (none, w2) =>
    let s2 := s1.call (.CreatePixelShader info.renderDevices.mRenderDevice shader none) w2
    (false, s2.call (.Release shader) (h.Release shader s2.world))
  | (some created, w2) =>
    let s2 :=
      s1.call (.CreatePixelShader info.renderDevices.mRenderDevice shader (some created)) w2
    (true, { s2 with
      eng := { s2.eng with
        mCompiledPixelShader := some created
        mCompiledShaders := s2.eng.mCompiledShaders ++ [⟨.PixelShader⟩]
        bIsCompiled := true } })

/-- The method `CreateVertexShader`. -/
def CreateVertexShader (h : Host W) (info : ShaderInformation) (shader : Nat) (s : St W) :
    Bool × St W :=
  let s1 : St W :=
    match s.eng.mCompiledVertexShader with
    | some old =>
      { (s.call (.Release old) (h.Release old s.world)) with
        eng := { s.eng with mCompiledVertexShader := none } }
    | none => s
  match h.CreateVertexShader info.renderDevices.mRenderDevice shader s1.world with
  | (none, w2) =>
    let s2 := s1.call (.CreateVertexShader info.renderDevices.mRenderDevice shader none) w2
    (false, s2.call (.Release shader) (h.Release shader s2.world))
  | (some created, w2) =>
    let s2 :=
      s1.call (.CreateVertexShader info.renderDevices.mRenderDevice shader (some created)) w2
    (true, { s2 with
      eng := { s2.eng with
        mCompiledVertexShader := some created
        mCompiledShaders := s2.eng.mCompiledShaders ++ [⟨.VertexShader⟩]
        bIsCompiled := true } })

/-- The method `CompileFile`. -/
def CompileFile (h : Host W) (info : ShaderInformation) (s : St W) : Bool × St W :=
  match ReadFile h info.hlslPath s with
  | (none, s1) => (false, s1)
  | (some fileBuffer, s1) =>
    match h.D3DCompile fileBuffer info.entryPoint info.shaderVersion s1.world with
    | (.error error, w2) =>
      let s2 := s1.call (.D3DCompile fileBuffer info.entryPoint info.shaderVersion) w2
      match error with
      | some msg =>
        let s3 := s2.call (.printfCompileFailed info.hlslPath msg) s2.world
        (false, s3.call (.Release msg) (h.Release msg s3.world))
      | none => (false, s2)
    | (.ok shader, w2) =>
      let s2 := s1.call (.D3DCompile fileBuffer info.entryPoint info.shaderVersion) w2
      match info.localShaderType with
      | .VertexShader => CreateVertexShader h info shader s2
      | .PixelShader => CreatePixelShader h info shader s2

/-- Lines 269-276 of `StartWatch`: `FindFirstFileA`, and `FindClose` when it found the
file. Answers `findData.ftLastWriteTime`, or `none` for `INVALID_HANDLE_VALUE`. -/
def statFile (h : Host W) (info : ShaderInformation) (s : St W) : Option FILETIME × St W :=
  match h.FindFirstFileA info.hlslPath s.world with
  | (none, w1) => (none, s.call (.FindFirstFileA info.hlslPath) w1)
  | (some (handle, ftLastWriteTime), w1) =>
    let s1 := s.call (.FindFirstFileA info.hlslPath) w1
    (some ftLastWriteTime, s1.call (.FindClose handle) (h.FindClose handle s1.world))

/-- The body of the `for` loop of `StartWatch`, for the descriptor `info`. The result of
`CompileFile` is dropped and the timestamp is stored in every case. -/
def watchBody (h : Host W) (s : St W) (info : ShaderInformation) : St W :=
  match statFile h info s with
  | (none, s1) => s1
  | (some ftLastWriteTime, s1) =>
    let time := FileTimeToUInt64 ftLastWriteTime
    if s1.eng.mTimeChanged info.localName.addr ≠ time then
      let s2 := (CompileFile h info s1).2
      { s2 with eng := { s2.eng with
          mTimeChanged := Function.update s2.eng.mTimeChanged info.localName.addr time } }
    else s1

/-- The first two statements of `StartWatch`: clear the flag and the event list. -/
def beginWatch (s : St W) : St W :=
  { s with eng := { s.eng with bIsCompiled := false, mCompiledShaders := [] } }

/-- The last statement of `StartWatch`: call the callback if it is set and
`IsCompiled()`. -/
def notifyCompiled (h : Host W) (s : St W) : St W :=
  match s.eng.mCustomCallbackWhenShadersIsCompiled with
  | some fn =>
    if IsCompiled s.eng then
      s.call (.Callback fn (observe s.eng)) (h.callback fn (observe s.eng) s.world)
    else s
  | none => s

/-- The state in which the loop of `StartWatch`, started in `s`, has gone through the
descriptors `done`. -/
def reach (h : Host W) (s : St W) (done : List ShaderInformation) : St W :=
  done.foldl (watchBody h) (beginWatch s)

/-- The method `StartWatch`: one watch cycle. -/
def StartWatch (h : Host W) (s : St W) : St W :=
  notifyCompiled h (reach h s s.eng.mShadersInformation)

/-- The method `Start`. -/
def Start (h : Host W) (s : St W) : St W := StartWatch h s

/-! ## Classes of calls -/

/-- The calls that `CompileFile` and what it calls can make: all but the two of the stat
and the callback. -/
def Call.inCompile : Call → Bool
  | .FindFirstFileA _ => false
  | .FindClose _ => false
  | .Callback _ _ => false
  | _ => true

/-- The call is a `FindFirstFileA`. -/
def Call.isStat : Call → Bool
  | .FindFirstFileA _ => true
  | _ => false

/-- The call is an invocation of the callback. -/
def Call.isCallback : Call → Bool
  | .Callback _ _ => true
  | _ => false

/-- The call opens a file for reading: one attempt of `ReadFile`. -/
def Call.isOpen : Call → Bool
  | .CreateFileA _ => true
  | _ => false

/-- The call belongs to reading the source: any of the file calls of `ReadFile`. -/
def Call.isRead : Call → Bool
  | .CreateFileA _ => true
  | .GetFileSizeEx _ => true
  | .ReadFile _ _ => true
  | _ => false

/-- The call belongs to compiling: the compiler or the creation of a shader object. -/
def Call.isCompile : Call → Bool
  | .D3DCompile _ _ _ => true
  | .CreateVertexShader _ _ _ => true
  | .CreatePixelShader _ _ _ => true
  | _ => false

/-- The call is the device creating the shader object `a` of the kind `k`. -/
def Call.creates (k : HotReloadableShaderType) (a : Nat) : Call → Bool
  | .CreateVertexShader _ _ (some b) => k = .VertexShader && a = b
  | .CreatePixelShader _ _ (some b) => k = .PixelShader && a = b
  | _ => false

/-- What a step between `s` and `t` that is not a registration cannot change: the
registry, the timestamps and the callback are kept, and the trace grows by calls of
`CompileFile`. -/
def Frame (s t : St W) : Prop :=
  t.eng.mShadersInformation = s.eng.mShadersInformation ∧
  t.eng.mTimeChanged = s.eng.mTimeChanged ∧
  t.eng.mCustomCallbackWhenShadersIsCompiled = s.eng.mCustomCallbackWhenShadersIsCompiled ∧
  ∃ seg, t.trace = s.trace ++ seg ∧ ∀ c ∈ seg, c.inCompile = true

/-- The artifact slot of a kind: `GetCompiledVertexShader` or `GetCompiledPixelShader`. -/
def compiledShader (e : HotReloadableShades) : HotReloadableShaderType → Option Nat
  | .VertexShader => GetCompiledVertexShader e
  | .PixelShader => GetCompiledPixelShader e

/-- The descriptor `info`, met by the loop of `StartWatch` in the state `s`, is compiled
successfully: its file is found, its timestamp differs from the stored one and
`CompileFile` returns `true`. -/
def compiledAt (h : Host W) (s : St W) (info : ShaderInformation) : Bool :=
  match statFile h info s with
  | (none, _) => false
  | (some ftLastWriteTime, s1) =>
    s1.eng.mTimeChanged info.localName.addr != FileTimeToUInt64 ftLastWriteTime &&
      (CompileFile h info s1).1

/-- The descriptors among `ds` that are compiled successfully when the loop of
`StartWatch` goes through `ds` from the state `s`, in the order of `ds`. -/
def compiledFrom (h : Host W) : St W → List ShaderInformation → List ShaderInformation
  | _, [] => []
  | s, d :: ds =>
    (if compiledAt h s d then [d] else []) ++ compiledFrom h (watchBody h s d) ds

/-- The descriptors that the watch cycle started in `s` compiles successfully, in
registration order. -/
def compiledInCycle (h : Host W) (s : St W) : List ShaderInformation :=
  compiledFrom h (beginWatch s) s.eng.mShadersInformation

/-- The states an engine can be in: constructed, then any sequence of `AddNewBundle`,
`ActionIfCompiled` and `Start`, the world moving freely between the calls. -/
inductive Reachable (h : Host W) : St W → Prop
  | construct (w : W) : Reachable h ⟨HotReloadableShades.new, w, []⟩
  | AddNewBundle {s : St W} (information : ShaderInformation) :
    Reachable h s → Reachable h { s with eng := AddNewBundle s.eng information }
  | ActionIfCompiled {s : St W} (callback : Option Nat) :
    Reachable h s → Reachable h { s with eng := ActionIfCompiled s.eng callback }
  | Start {s : St W} : Reachable h s → Reachable h (Start h s)
  | world {s : St W} (w : W) : Reachable h s → Reachable h { s with world := w }

/-- The watch cycle run under the host `h` once the world has become `w`. -/
def cycleIn (h : Host W) (w : W) (s : St W) : St W :=
  StartWatch h { s with world := w }

/-- Under the host `h` the file of the descriptor `d` always stats to the timestamp `T`,
is always read with the content `X`, and `X` always compiles, to a blob of which the
device always makes the vertex shader object `a`. -/
def ServesVertex (h : Host W) (d : ShaderInformation) (T : Nat) (X : List Nat) (a : Nat) :
    Prop :=
  (∀ s : St W, ∃ ft, (statFile h d s).1 = some ft ∧ FileTimeToUInt64 ft = T) ∧
  (∀ s : St W, (ReadFile h d.hlslPath s).1 = some X) ∧
  ∃ blob, (∀ w, (h.D3DCompile X d.entryPoint d.shaderVersion w).1 = .ok blob) ∧
    ∀ w, (h.CreateVertexShader d.renderDevices.mRenderDevice blob w).1 = some a

/-- Lines 387-398 of `CompileFile`: the creation method of the kind of `info`. -/
def createShader (h : Host W) (info : ShaderInformation) (shader : Nat) (s : St W) :
    Bool × St W :=
  match info.localShaderType with
  | .VertexShader => CreateVertexShader h info shader s
  | .PixelShader => CreatePixelShader h info shader s

/-- The creation call of the device for the kind `k`: `ID3D11Device::CreateVertexShader`
or `ID3D11Device::CreatePixelShader`. -/
def deviceCreate (h : Host W) (k : HotReloadableShaderType) (device blob : Nat) (w : W) :
    Option Nat × W :=
  match k with
  | .VertexShader => h.CreateVertexShader device blob w
  | .PixelShader => h.CreatePixelShader device blob w

/-! ## Concrete runs

A scripted host and the two descriptors of the demo, on which the statements below are
evaluated. -/

/-- The pixel descriptor registered by `Example::PrepareHotReloadShaders`. -/
def demoPixel : ShaderInformation where
  localName := ⟨100, "BasicPixelShader"⟩
  localShaderType := .PixelShader
  shaderVersion := "ps_5_0"
  entryPoint := "main"
  hlslPath := "PixelShader.hlsl"
  bSaveToCSO := true
  isAutomationBind := false
  mLastWriteTime := 0
  renderDevices := ⟨1, 2⟩

/-- The vertex descriptor registered by `Example::PrepareHotReloadShaders`. -/
def demoVertex : ShaderInformation where
  localName := ⟨200, "BasicVertexShader"⟩
  localShaderType := .VertexShader
  shaderVersion := "vs_5_0"
  entryPoint := "main"
  hlslPath := "VertexShader.hlsl"
  bSaveToCSO := true
  isAutomationBind := false
  mLastWriteTime := 0
  renderDevices := ⟨1, 2⟩

/-- A script for the outside world: the timestamp of each path (or not found), the handle
each path opens to (or the open fails), how many size queries answer zero before the true
size is reported, the bytes behind each handle (or the read fails), what each source
compiles to, and the shader object the device makes of each blob. -/
structure Script where
  stat : String → Option FILETIME
  openFile : String → Option Nat
  empties : Nat
  bytes : Nat → Option (List Nat)
  compile : List Nat → Except (Option Nat) Nat
  createVS : Nat → Option Nat
  createPS : Nat → Option Nat

/-- The host that plays a script. Its world is the number of size queries made so far. -/
def Script.host (p : Script) : Host Nat where
  FindFirstFileA path w := ((p.stat path).map (fun ft => (900, ft)), w)
  FindClose _ w := w
  CreateFileA path w := (p.openFile path, w)
  GetFileSizeEx hFile w :=
    (some (if w < p.empties then 0 else ((p.bytes hFile).getD []).length), w + 1)
  ReadFile hFile n w := ((p.bytes hFile).map (fun b => b.take n), w)
  CloseHandle _ w := w
  D3DCompile src _ _ w := (p.compile src, w)
  Release _ w := w
  CreateVertexShader _ blob w := (p.createVS blob, w)
  CreatePixelShader _ blob w := (p.createPS blob, w)
  callback _ _ w := w

/-- The handles the demo files open to: `1` for the vertex source, `2` for the pixel
source. -/
def demoOpen (path : String) : Option Nat :=
  if path = "VertexShader.hlsl" then some 1
  else if path = "PixelShader.hlsl" then some 2
  else none

/-- A world in which both demo files carry the timestamp `7`, hold three bytes each,
compile, and yield the shader objects `blob + 1000`. -/
def goodScript : Script where
  stat _ := some ⟨7, 0⟩
  openFile := demoOpen
  empties := 0
  bytes hFile := some [hFile, hFile, hFile]
  compile src := .ok (src.headD 0 + 10)
  createVS blob := some (blob + 1000)
  createPS blob := some (blob + 1000)

/-- As `goodScript`, but no file can be opened: every `ReadFile` fails. -/
def lockedScript : Script :=
  { goodScript with openFile := fun _ => none }

/-- As `goodScript`, but the compiler rejects every source, with the error blob `66`. -/
def brokenScript : Script :=
  { goodScript with compile := fun _ => .error (some 66) }

/-- As `goodScript`, but the files carry the timestamp `0`. -/
def zeroScript : Script :=
  { goodScript with stat := fun _ => some ⟨0, 0⟩ }

/-- As `goodScript`, but the files carry the timestamp `8` and hold other bytes. -/
def editedScript : Script :=
  { goodScript with stat := fun _ => some ⟨8, 0⟩, bytes := fun hFile => some [hFile + 4] }

/-- As `goodScript`, but the first four size queries answer zero. -/
def retryScript : Script :=
  { goodScript with empties := 4 }

/-- As `goodScript`, but the first five size queries answer zero. -/
def emptyScript : Script :=
  { goodScript with empties := 5 }

/-- As `goodScript`, but the compiler rejects the pixel source (the one whose bytes are
`2`), without an error blob. -/
def pixelBrokenScript : Script :=
  { goodScript with
    compile := fun src => if src.headD 0 = 2 then .error none else .ok (src.headD 0 + 10) }

/-- As `goodScript`, but the pixel source is not found. -/
def missingScript : Script :=
  { goodScript with
    stat := fun path => if path = "PixelShader.hlsl" then none else some ⟨7, 0⟩ }

/-- As `editedScript`, but the device refuses to create any shader object. -/
def refusingScript : Script :=
  { editedScript with createVS := fun _ => none, createPS := fun _ => none }

/-- An engine with the callback `1` and the demo's vertex descriptor registered, before
its first cycle. -/
def vertexOnly : St Nat where
  eng := AddNewBundle (ActionIfCompiled HotReloadableShades.new (some 1)) demoVertex
  world := 0
  trace := []

/-- An engine with the callback `1` and both demo descriptors registered, in the demo's
order, before its first cycle. -/
def demoEngine : St Nat where
  eng := AddNewBundle (AddNewBundle (ActionIfCompiled HotReloadableShades.new (some 1))
    demoPixel) demoVertex
  world := 0
  trace := []

/-- A second vertex descriptor, with a name of its own, whose source is the file
`PixelShader.hlsl`. -/
def twinVertex : ShaderInformation :=
  { demoVertex with localName := ⟨300, "SecondVertexShader"⟩, hlslPath := "PixelShader.hlsl" }

/-- The pixel descriptor of the demo, registered under the very name pointer of the vertex
descriptor. -/
def aliasPixel : ShaderInformation :=
  { demoPixel with localName := demoVertex.localName }

/-- As `brokenScript`, but the pixel source carries the timestamp `9`. -/
def staggeredScript : Script :=
  { brokenScript with
    stat := fun path => if path = "PixelShader.hlsl" then some ⟨9, 0⟩ else some ⟨7, 0⟩ }

/-- An engine with two vertex descriptors of different names, `twinVertex` first. -/
def twoVertexEngine : St Nat where
  eng := AddNewBundle (AddNewBundle (ActionIfCompiled HotReloadableShades.new (some 1))
    twinVertex) demoVertex
  world := 0
  trace := []

/-- An engine with a vertex and a pixel descriptor that share one name pointer. -/
def aliasEngine : St Nat where
  eng := AddNewBundle (AddNewBundle (ActionIfCompiled HotReloadableShades.new (some 1))
    demoVertex) aliasPixel
  world := 0
  trace := []

/-! ## Lemmas -/

theorem callsSince_eq {s t : St W} {seg : List Call} (ht : t.trace = s.trace ++ seg) :
    callsSince s t = seg := by
  simp [callsSince, ht]

theorem callsSince_mono {s s1 t : St W} {c : Call} (h1 : ∃ seg, s1.trace = s.trace ++ seg)
    (h2 : ∃ seg, t.trace = s1.trace ++ seg) (hc : c ∈ callsSince s1 t) :
    c ∈ callsSince s t := by
  obtain ⟨seg0, e0⟩ := h1
  obtain ⟨seg1, e1⟩ := h2
  rw [callsSince_eq e1] at hc
  have : t.trace = s.trace ++ (seg0 ++ seg1) := by rw [e1, e0, List.append_assoc]
  rw [callsSince_eq this]
  exact List.mem_append_right _ hc

theorem callsSince_mid {s s1 t u : St W} {c : Call} (h1 : ∃ seg, s1.trace = s.trace ++ seg)
    (h2 : ∃ seg, t.trace = s1.trace ++ seg) (h3 : ∃ seg, u.trace = t.trace ++ seg)
    (hc : c ∈ callsSince s1 t) : c ∈ callsSince s u := by
  obtain ⟨seg0, e0⟩ := h1
  obtain ⟨seg1, e1⟩ := h2
  obtain ⟨seg2, e2⟩ := h3
  rw [callsSince_eq e1] at hc
  have : u.trace = s.trace ++ (seg0 ++ seg1 ++ seg2) := by
    rw [e2, e1, e0]; simp
  rw [callsSince_eq this]
  exact List.mem_append_left _ (List.mem_append_right _ hc)

theorem ReadFileLoop_frame (h : Host W) (f : String) :
    ∀ (n a : Nat) (s : St W), ∃ seg,
      (ReadFileLoop h f n a s).2.trace = s.trace ++ seg ∧
      (∀ c ∈ seg, c.inCompile = true) ∧
      (ReadFileLoop h f n a s).2.eng = s.eng := by
  intro n
  induction n with
  | zero =>
    intro a s
    exact ⟨[.printfReadFailed f a], by simp [ReadFileLoop, St.call], by simp [Call.inCompile],
      by simp [ReadFileLoop, St.call]⟩
  | succ n ih =>
    intro a s
    simp only [ReadFileLoop]
    rcases hc : h.CreateFileA f s.world with ⟨_ | hFile, w1⟩
    · exact ⟨[.CreateFileA f], by simp [St.call], by simp [Call.inCompile], by simp [St.call]⟩
    · simp only []
      rcases hz : h.GetFileSizeEx hFile (s.call (.CreateFileA f) w1).world with ⟨_ | size, w2⟩
      · exact ⟨[.CreateFileA f, .GetFileSizeEx hFile, .CloseHandle hFile],
          by simp [St.call], by simp [Call.inCompile], by simp [St.call]⟩
      · simp only []
        by_cases h0 : size = 0
        · simp only [h0, if_true]
          obtain ⟨seg, h1, h2, h3⟩ :=
            ih (a + 1) ((s.call (.CreateFileA f) w1).call (.GetFileSizeEx hFile) w2)
          refine ⟨[.CreateFileA f, .GetFileSizeEx hFile] ++ seg, ?_, ?_, ?_⟩
          · rw [h1]; simp [St.call]
          · intro c hcm
            simp only [List.mem_append, List.mem_cons, List.mem_singleton,
              List.not_mem_nil, or_false] at hcm
            rcases hcm with (rfl | rfl) | hcm
            · rfl
            · rfl
            · exact h2 c hcm
          · rw [h3]; simp [St.call]
        · simp only [h0, if_false]
          rcases hr : h.ReadFile hFile (size % 2 ^ 32)
            ((s.call (.CreateFileA f) w1).call (.GetFileSizeEx hFile) w2).world with ⟨_ | data, w3⟩
          · exact ⟨[.CreateFileA f, .GetFileSizeEx hFile, .ReadFile hFile (size % 2 ^ 32),
              .CloseHandle hFile], by simp [St.call], by simp [Call.inCompile], by simp [St.call]⟩
          · exact ⟨[.CreateFileA f, .GetFileSizeEx hFile, .ReadFile hFile (size % 2 ^ 32),
              .CloseHandle hFile], by simp [St.call], by simp [Call.inCompile], by simp [St.call]⟩

theorem ReadFile_eng (h : Host W) (f : String) (s : St W) :
    (ReadFile h f s).2.eng = s.eng :=
  (ReadFileLoop_frame h f maxAttempts 0 s).choose_spec.2.2

theorem ReadFileLoop_head (h : Host W) (f : String) (n a : Nat) (s : St W) :
    ∃ rest, (ReadFileLoop h f (n + 1) a s).2.trace = s.trace ++ .CreateFileA f :: rest := by
  simp only [ReadFileLoop]
  rcases hc : h.CreateFileA f s.world with ⟨_ | hFile, w1⟩
  · exact ⟨[], by simp [St.call]⟩
  · simp only []
    rcases hz : h.GetFileSizeEx hFile (s.call (.CreateFileA f) w1).world with ⟨_ | size, w2⟩
    · exact ⟨[.GetFileSizeEx hFile, .CloseHandle hFile], by simp [St.call]⟩
    · simp only []
      by_cases h0 : size = 0
      · simp only [h0, if_true]
        obtain ⟨seg2, h3, -, -⟩ := ReadFileLoop_frame h f n (a + 1)
          ((s.call (.CreateFileA f) w1).call (.GetFileSizeEx hFile) w2)
        exact ⟨.GetFileSizeEx hFile :: seg2, by rw [h3]; simp [St.call]⟩
      · simp only [h0, if_false]
        rcases hr : h.ReadFile hFile (size % 2 ^ 32)
          ((s.call (.CreateFileA f) w1).call (.GetFileSizeEx hFile) w2).world with ⟨_ | data, w3⟩
        · exact ⟨[.GetFileSizeEx hFile, .ReadFile hFile (size % 2 ^ 32), .CloseHandle hFile],
            by simp [St.call]⟩
        · exact ⟨[.GetFileSizeEx hFile, .ReadFile hFile (size % 2 ^ 32), .CloseHandle hFile],
            by simp [St.call]⟩

theorem ReadFile_trace (h : Host W) (f : String) (s : St W) :
    ∃ seg, (ReadFile h f s).2.trace = s.trace ++ .CreateFileA f :: seg ∧
      ∀ c ∈ seg, c.inCompile = true := by
  obtain ⟨seg, h1, h2, -⟩ := ReadFileLoop_frame h f maxAttempts 0 s
  obtain ⟨rest, h3⟩ := ReadFileLoop_head h f 4 0 s
  have hseg : seg = .CreateFileA f :: rest :=
    List.append_cancel_left (h1.symm.trans h3)
  subst hseg
  exact ⟨rest, h1, fun c hc => h2 c (List.mem_cons_of_mem _ hc)⟩

theorem Frame.refl (s : St W) : Frame s s :=
  ⟨rfl, rfl, rfl, [], by simp, by simp⟩

theorem Frame.trans {s t u : St W} (h1 : Frame s t) (h2 : Frame t u) : Frame s u := by
  obtain ⟨a1, b1, c1, seg1, d1, e1⟩ := h1
  obtain ⟨a2, b2, c2, seg2, d2, e2⟩ := h2
  refine ⟨a2.trans a1, b2.trans b1, c2.trans c1, seg1 ++ seg2, ?_, ?_⟩
  · rw [d2, d1, List.append_assoc]
  · intro c hc
    rcases List.mem_append.1 hc with hc | hc
    · exact e1 c hc
    · exact e2 c hc

theorem ReadFile_Frame (h : Host W) (f : String) (s : St W) :
    Frame s (ReadFile h f s).2 := by
  obtain ⟨seg, h1, h2⟩ := ReadFile_trace h f s
  have he := ReadFile_eng h f s
  refine ⟨by rw [he], by rw [he], by rw [he], _, h1, ?_⟩
  intro c hc
  rcases List.mem_cons.1 hc with rfl | hc
  · rfl
  · exact h2 c hc

theorem CreateVertexShader_spec (h : Host W) (info : ShaderInformation) (shader : Nat)
    (s : St W) :
    Frame s (CreateVertexShader h info shader s).2 ∧
    (CreateVertexShader h info shader s).2.eng.mCompiledPixelShader
      = s.eng.mCompiledPixelShader ∧
    ((CreateVertexShader h info shader s).1 = true →
      (∃ a, (CreateVertexShader h info shader s).2.eng.mCompiledVertexShader = some a ∧
        ∃ c ∈ callsSince s (CreateVertexShader h info shader s).2,
          c.creates .VertexShader a = true) ∧
      (CreateVertexShader h info shader s).2.eng.mCompiledShaders
        = s.eng.mCompiledShaders ++ [⟨.VertexShader⟩] ∧
      (CreateVertexShader h info shader s).2.eng.bIsCompiled = true) ∧
    ((CreateVertexShader h info shader s).1 = false →
      (CreateVertexShader h info shader s).2.eng.mCompiledVertexShader = none ∧
      (CreateVertexShader h info shader s).2.eng.mCompiledShaders = s.eng.mCompiledShaders ∧
      (CreateVertexShader h info shader s).2.eng.bIsCompiled = s.eng.bIsCompiled) := by
  unfold CreateVertexShader
  rcases hs : s.eng.mCompiledVertexShader with _ | old
  · simp only []
    rcases hd : h.CreateVertexShader info.renderDevices.mRenderDevice shader s.world
      with ⟨_ | a, w2⟩
    · simp [Frame, St.call, Call.inCompile, hs]
    · simp [Frame, St.call, Call.inCompile, callsSince, Call.creates]
  · simp only []
    rcases hd : h.CreateVertexShader info.renderDevices.mRenderDevice shader
      (h.Release old s.world) with ⟨_ | a, w2⟩
    · simp [Frame, St.call, Call.inCompile, hd]
    · simp [Frame, St.call, Call.inCompile, hd, callsSince, Call.creates]

theorem CreatePixelShader_spec (h : Host W) (info : ShaderInformation) (shader : Nat)
    (s : St W) :
    Frame s (CreatePixelShader h info shader s).2 ∧
    (CreatePixelShader h info shader s).2.eng.mCompiledVertexShader
      = s.eng.mCompiledVertexShader ∧
    ((CreatePixelShader h info shader s).1 = true →
      (∃ a, (CreatePixelShader h info shader s).2.eng.mCompiledPixelShader = some a ∧
        ∃ c ∈ callsSince s (CreatePixelShader h info shader s).2,
          c.creates .PixelShader a = true) ∧
      (CreatePixelShader h info shader s).2.eng.mCompiledShaders
        = s.eng.mCompiledShaders ++ [⟨.PixelShader⟩] ∧
      (CreatePixelShader h info shader s).2.eng.bIsCompiled = true) ∧
    ((CreatePixelShader h info shader s).1 = false →
      (CreatePixelShader h info shader s).2.eng.mCompiledPixelShader = none ∧
      (CreatePixelShader h info shader s).2.eng.mCompiledShaders = s.eng.mCompiledShaders ∧
      (CreatePixelShader h info shader s).2.eng.bIsCompiled = s.eng.bIsCompiled) := by
  unfold CreatePixelShader
  rcases hs : s.eng.mCompiledPixelShader with _ | old
  · simp only []
    rcases hd : h.CreatePixelShader info.renderDevices.mRenderDevice shader s.world
      with ⟨_ | a, w2⟩
    · simp [Frame, St.call, Call.inCompile, hs]
    · simp [Frame, St.call, Call.inCompile, callsSince, Call.creates]
  · simp only []
    rcases hd : h.CreatePixelShader info.renderDevices.mRenderDevice shader
      (h.Release old s.world) with ⟨_ | a, w2⟩
    · simp [Frame, St.call, Call.inCompile, hd]
    · simp [Frame, St.call, Call.inCompile, hd, callsSince, Call.creates]

theorem Frame.call (s : St W) (c : Call) (w : W) (hc : c.inCompile = true) :
    Frame s (s.call c w) :=
  ⟨rfl, rfl, rfl, [c], rfl, by simpa using hc⟩

theorem CompileFile_spec (h : Host W) (info : ShaderInformation) (s : St W) :
    Frame s (CompileFile h info s).2 ∧
    (∃ rest, (CompileFile h info s).2.trace = s.trace ++ .CreateFileA info.hlslPath :: rest) ∧
    (∀ k, k ≠ info.localShaderType →
      compiledShader (CompileFile h info s).2.eng k = compiledShader s.eng k) ∧
    ((CompileFile h info s).1 = true →
      (∃ a, compiledShader (CompileFile h info s).2.eng info.localShaderType = some a ∧
        ∃ c ∈ callsSince s (CompileFile h info s).2, c.creates info.localShaderType a = true) ∧
      (CompileFile h info s).2.eng.mCompiledShaders
        = s.eng.mCompiledShaders ++ [⟨info.localShaderType⟩] ∧
      (CompileFile h info s).2.eng.bIsCompiled = true) ∧
    ((CompileFile h info s).1 = false →
      (CompileFile h info s).2.eng.mCompiledShaders = s.eng.mCompiledShaders ∧
      (CompileFile h info s).2.eng.bIsCompiled = s.eng.bIsCompiled) := by
  have hF := ReadFile_Frame h info.hlslPath s
  have hE := ReadFile_eng h info.hlslPath s
  obtain ⟨seg, hT, -⟩ := ReadFile_trace h info.hlslPath s
  unfold CompileFile
  rcases hR : ReadFile h info.hlslPath s with ⟨_ | buf, s1⟩
  · rw [hR] at hF hE hT
    simp only [] at hF hE hT ⊢
    exact ⟨hF, ⟨seg, hT⟩, by simp [hE], by simp, by simp [hE]⟩
  · rw [hR] at hF hE hT
    simp only [] at hF hE hT ⊢
    rcases hD : h.D3DCompile buf info.entryPoint info.shaderVersion s1.world
      with ⟨err | blob, w2⟩
    · rcases err with _ | msg
      · simp only []
        refine ⟨hF.trans (Frame.call _ _ _ rfl),
          ⟨seg ++ [.D3DCompile buf info.entryPoint info.shaderVersion],
            by simp [St.call, hT]⟩,
          by simp [St.call, hE], by simp, by simp [St.call, hE]⟩
      · simp only []
        refine ⟨((hF.trans (Frame.call _ (.D3DCompile buf info.entryPoint info.shaderVersion)
            _ rfl)).trans (Frame.call _ (.printfCompileFailed info.hlslPath msg) _ rfl)).trans
            (Frame.call _ (.Release msg) _ rfl),
          ⟨seg ++ [.D3DCompile buf info.entryPoint info.shaderVersion,
            .printfCompileFailed info.hlslPath msg, .Release msg], by simp [St.call, hT]⟩,
          by simp [St.call, hE], by simp, by simp [St.call, hE]⟩
    · simp only []
      have hF2 : Frame s (s1.call (.D3DCompile buf info.entryPoint info.shaderVersion) w2) :=
        hF.trans (Frame.call _ _ _ rfl)
      rcases hk : info.localShaderType
      · simp only []
        obtain ⟨c1, c2, c3, c4⟩ := CreateVertexShader_spec h info blob
          (s1.call (.D3DCompile buf info.entryPoint info.shaderVersion) w2)
        refine ⟨hF2.trans c1, ?_, ?_, ?_, ?_⟩
        · obtain ⟨-, -, -, sg, hsg, -⟩ := c1
          exact ⟨seg ++ .D3DCompile buf info.entryPoint info.shaderVersion :: sg,
            by rw [hsg]; simp [St.call, hT]⟩
        · intro k hkne
          cases k
          · exact absurd rfl hkne
          · simpa [compiledShader, GetCompiledPixelShader, St.call, hE] using c2
        · intro ht
          obtain ⟨d1, d2, d3⟩ := c3 ht
          obtain ⟨a, da, c, dc1, dc2⟩ := d1
          refine ⟨⟨a, by simpa [compiledShader, GetCompiledVertexShader] using da, c, ?_, dc2⟩,
            by simpa [St.call, hE] using d2, d3⟩
          obtain ⟨-, -, -, sg, hsg, -⟩ := c1
          exact callsSince_mono
            ⟨.CreateFileA info.hlslPath :: seg ++
              [.D3DCompile buf info.entryPoint info.shaderVersion], by simp [St.call, hT]⟩
            ⟨sg, hsg⟩ dc1
        · intro hf
          obtain ⟨-, d2, d3⟩ := c4 hf
          exact ⟨by simpa [St.call, hE] using d2, by simpa [St.call, hE] using d3⟩
      · simp only []
        obtain ⟨c1, c2, c3, c4⟩ := CreatePixelShader_spec h info blob
          (s1.call (.D3DCompile buf info.entryPoint info.shaderVersion) w2)
        refine ⟨hF2.trans c1, ?_, ?_, ?_, ?_⟩
        · obtain ⟨-, -, -, sg, hsg, -⟩ := c1
          exact ⟨seg ++ .D3DCompile buf info.entryPoint info.shaderVersion :: sg,
            by rw [hsg]; simp [St.call, hT]⟩
        · intro k hkne
          cases k
          · simpa [compiledShader, GetCompiledVertexShader, St.call, hE] using c2
          · exact absurd rfl hkne
        · intro ht
          obtain ⟨d1, d2, d3⟩ := c3 ht
          obtain ⟨a, da, c, dc1, dc2⟩ := d1
          refine ⟨⟨a, by simpa [compiledShader, GetCompiledPixelShader] using da, c, ?_, dc2⟩,
            by simpa [St.call, hE] using d2, d3⟩
          obtain ⟨-, -, -, sg, hsg, -⟩ := c1
          exact callsSince_mono
            ⟨.CreateFileA info.hlslPath :: seg ++
              [.D3DCompile buf info.entryPoint info.shaderVersion], by simp [St.call, hT]⟩
            ⟨sg, hsg⟩ dc1
        · intro hf
          obtain ⟨-, d2, d3⟩ := c4 hf
          exact ⟨by simpa [St.call, hE] using d2, by simpa [St.call, hE] using d3⟩

theorem inCompile_not (c : Call) (hc : c.inCompile = true) :
    c.isStat = false ∧ c.isCallback = false := by
  cases c <;> simp_all [Call.inCompile, Call.isStat, Call.isCallback]

theorem statFile_spec (h : Host W) (info : ShaderInformation) (s : St W) :
    (statFile h info s).2.eng = s.eng ∧
    ∃ rest, (statFile h info s).2.trace = s.trace ++ .FindFirstFileA info.hlslPath :: rest ∧
      ∀ c ∈ rest, c.isStat = false ∧ c.isCallback = false := by
  unfold statFile
  rcases hf : h.FindFirstFileA info.hlslPath s.world with ⟨_ | ⟨handle, ft⟩, w1⟩
  · exact ⟨rfl, [], by simp [St.call], by simp⟩
  · exact ⟨rfl, [.FindClose handle], by simp [St.call],
      by simp [Call.isStat, Call.isCallback]⟩

theorem watchBody_spec (h : Host W) (s : St W) (d : ShaderInformation) :
    (watchBody h s d).eng.mShadersInformation = s.eng.mShadersInformation ∧
    (watchBody h s d).eng.mCustomCallbackWhenShadersIsCompiled
      = s.eng.mCustomCallbackWhenShadersIsCompiled ∧
    (∀ k, k ≠ d.localName.addr →
      (watchBody h s d).eng.mTimeChanged k = s.eng.mTimeChanged k) ∧
    (∃ rest, (watchBody h s d).trace = s.trace ++ .FindFirstFileA d.hlslPath :: rest ∧
      ∀ c ∈ rest, c.isStat = false ∧ c.isCallback = false) ∧
    (∀ k, k ≠ d.localShaderType →
      compiledShader (watchBody h s d).eng k = compiledShader s.eng k) ∧
    (watchBody h s d).eng.bIsCompiled = (s.eng.bIsCompiled || compiledAt h s d) ∧
    (watchBody h s d).eng.mCompiledShaders
      = s.eng.mCompiledShaders ++ (if compiledAt h s d then [⟨d.localShaderType⟩] else []) ∧
    (compiledAt h s d = true →
      ∃ a, compiledShader (watchBody h s d).eng d.localShaderType = some a ∧
        ∃ c ∈ callsSince s (watchBody h s d), c.creates d.localShaderType a = true) := by
  obtain ⟨hE, rest, hT, hN⟩ := statFile_spec h d s
  unfold watchBody compiledAt
  rcases hS : statFile h d s with ⟨_ | ft, s1⟩
  · rw [hS] at hE hT
    simp only [] at hE hT ⊢
    exact ⟨by rw [hE], by rw [hE], by simp [hE], ⟨rest, hT, hN⟩, by simp [hE],
      by simp [hE], by simp [hE], by simp⟩
  · rw [hS] at hE hT
    simp only [] at hE hT ⊢
    by_cases hne : s1.eng.mTimeChanged d.localName.addr = FileTimeToUInt64 ft
    · simp only [hne, ne_eq, not_true_eq_false, if_false, bne_self_eq_false, Bool.false_and,
        Bool.or_false]
      exact ⟨by rw [hE], by rw [hE], by simp [hE], ⟨rest, hT, hN⟩, by simp [hE],
        by simp [hE], by simp [hE], by simp⟩
    · obtain ⟨⟨f1, f2, f3, sg, f4, f5⟩, -, c3, c4, c5⟩ := CompileFile_spec h d s1
      have hb : (s1.eng.mTimeChanged d.localName.addr != FileTimeToUInt64 ft) = true := by
        simpa using hne
      simp only [ne_eq, hne, not_false_eq_true, if_true, hb, Bool.true_and]
      refine ⟨by rw [f1, hE], by rw [f3, hE], ?_, ?_, ?_, ?_, ?_, ?_⟩
      · intro k hk
        simp only [Function.update_apply, hk, if_false]
        rw [f2, hE]
      · refine ⟨rest ++ sg, by simp only [f4, hT]; simp, ?_⟩
        intro c hc
        rcases List.mem_append.1 hc with hc | hc
        · exact hN c hc
        · exact inCompile_not c (f5 c hc)
      · intro k hk
        have := c3 k hk
        simpa [compiledShader, GetCompiledVertexShader, GetCompiledPixelShader, hE] using this
      · rcases hr : (CompileFile h d s1).1
        · simpa [hE] using (c5 hr).2
        · simpa using (c4 hr).2.2
      · rcases hr : (CompileFile h d s1).1
        · simpa [hE] using (c5 hr).1
        · simpa [hE] using (c4 hr).2.1
      · intro hr
        obtain ⟨a, ha, c, hc1, hc2⟩ := (c4 hr).1
        refine ⟨a, by simpa [compiledShader, GetCompiledVertexShader, GetCompiledPixelShader]
          using ha, c, ?_, hc2⟩
        exact callsSince_mono ⟨_, hT⟩ ⟨sg, f4⟩ hc1

theorem foldl_watchBody_frame (h : Host W) (ds : List ShaderInformation) :
    ∀ s : St W,
    (ds.foldl (watchBody h) s).eng.mShadersInformation = s.eng.mShadersInformation ∧
    (ds.foldl (watchBody h) s).eng.mCustomCallbackWhenShadersIsCompiled
      = s.eng.mCustomCallbackWhenShadersIsCompiled ∧
    (∀ k, (∀ x ∈ ds, x.localName.addr ≠ k) →
      (ds.foldl (watchBody h) s).eng.mTimeChanged k = s.eng.mTimeChanged k) ∧
    (∀ k, (∀ x ∈ ds, x.localShaderType ≠ k) →
      compiledShader (ds.foldl (watchBody h) s).eng k = compiledShader s.eng k) ∧
    (∃ l, (ds.foldl (watchBody h) s).eng.mCompiledShaders = s.eng.mCompiledShaders ++ l) := by
  induction ds with
  | nil => intro s; exact ⟨rfl, rfl, fun _ _ => rfl, fun _ _ => rfl, [], by simp⟩
  | cons d ds ih =>
    intro s
    obtain ⟨a1, a2, a3, a4, l, a5⟩ := ih (watchBody h s d)
    obtain ⟨b1, b2, b3, -, b5, -, b7, -⟩ := watchBody_spec h s d
    simp only [List.foldl_cons]
    refine ⟨a1.trans b1, a2.trans b2, ?_, ?_, ?_⟩
    · intro k hk
      rw [a3 k (fun x hx => hk x (List.mem_cons_of_mem _ hx))]
      exact b3 k (fun e => hk d (List.mem_cons_self _ _) e.symm)
    · intro k hk
      rw [a4 k (fun x hx => hk x (List.mem_cons_of_mem _ hx))]
      exact b5 k (fun e => hk d (List.mem_cons_self _ _) e.symm)
    · exact ⟨_, by rw [a5, b7, List.append_assoc]⟩

theorem foldl_watchBody_trace (h : Host W) (ds : List ShaderInformation) :
    ∀ s : St W, ∃ seg,
      (ds.foldl (watchBody h) s).trace = s.trace ++ seg ∧
      seg.filter Call.isStat = ds.map (fun d => Call.FindFirstFileA d.hlslPath) ∧
      seg.filter Call.isCallback = [] := by
  induction ds with
  | nil => intro s; exact ⟨[], by simp, by simp, by simp⟩
  | cons d ds ih =>
    intro s
    obtain ⟨seg, a1, a2, a3⟩ := ih (watchBody h s d)
    obtain ⟨-, -, -, ⟨rest, b1, b2⟩, -⟩ := watchBody_spec h s d
    have hr1 : rest.filter Call.isStat = [] :=
      List.filter_eq_nil_iff.2 (fun c hc => by simp [(b2 c hc).1])
    have hr2 : rest.filter Call.isCallback = [] :=
      List.filter_eq_nil_iff.2 (fun c hc => by simp [(b2 c hc).2])
    refine ⟨Call.FindFirstFileA d.hlslPath :: rest ++ seg, ?_, ?_, ?_⟩
    · simp only [List.foldl_cons, a1, b1]; simp
    · simp [List.filter_cons, Call.isStat, hr1, a2]
    · simp [List.filter_cons, Call.isCallback, hr2, a3]

theorem foldl_watchBody_compiled (h : Host W) (ds : List ShaderInformation) :
    ∀ s : St W,
      (ds.foldl (watchBody h) s).eng.bIsCompiled
        = (s.eng.bIsCompiled || !(compiledFrom h s ds).isEmpty) ∧
      (ds.foldl (watchBody h) s).eng.mCompiledShaders
        = s.eng.mCompiledShaders ++
          (compiledFrom h s ds).map (fun d => (⟨d.localShaderType⟩ : CompiledQueue)) := by
  induction ds with
  | nil => intro s; simp [compiledFrom]
  | cons d ds ih =>
    intro s
    obtain ⟨a1, a2⟩ := ih (watchBody h s d)
    obtain ⟨-, -, -, -, -, b6, b7, -⟩ := watchBody_spec h s d
    simp only [List.foldl_cons, compiledFrom]
    rw [a1, a2, b6, b7]
    by_cases hc : compiledAt h s d = true
    · simp [hc]
    · simp only [Bool.not_eq_true] at hc
      simp [hc]

theorem mem_compiledFrom (h : Host W) (d : ShaderInformation)
    (ds : List ShaderInformation) :
    ∀ s : St W, d ∈ compiledFrom h s ds ↔
      ∃ done rest, ds = done ++ d :: rest ∧
        compiledAt h (done.foldl (watchBody h) s) d = true := by
  induction ds with
  | nil => intro s; simp [compiledFrom]
  | cons x ds ih =>
    intro s
    simp only [compiledFrom, List.mem_append, ih]
    constructor
    · rintro (hx | ⟨done, rest, he, hc⟩)
      · by_cases hcx : compiledAt h s x = true
        · simp only [hcx, if_true, List.mem_singleton] at hx
          subst hx
          exact ⟨[], ds, rfl, hcx⟩
        · simp [hcx] at hx
      · exact ⟨x :: done, rest, by rw [he]; rfl, hc⟩
    · rintro ⟨done, rest, he, hc⟩
      cases done with
      | nil =>
        simp only [List.nil_append, List.cons.injEq] at he
        obtain ⟨rfl, rfl⟩ := he
        left
        simp only [List.foldl_nil] at hc
        simp [hc]
      | cons y done =>
        simp only [List.cons_append, List.cons.injEq] at he
        obtain ⟨rfl, rfl⟩ := he
        exact Or.inr ⟨done, rest, rfl, hc⟩

theorem notifyCompiled_eng (h : Host W) (s : St W) : (notifyCompiled h s).eng = s.eng := by
  unfold notifyCompiled
  split
  · split <;> rfl
  · rfl

theorem notifyCompiled_idle (h : Host W) (s : St W) (hflag : s.eng.bIsCompiled = false) :
    notifyCompiled h s = s := by
  unfold notifyCompiled
  cases s.eng.mCustomCallbackWhenShadersIsCompiled <;> simp [IsCompiled, hflag]

theorem notifyCompiled_fire (h : Host W) (s : St W) (fn : Nat)
    (hcb : s.eng.mCustomCallbackWhenShadersIsCompiled = some fn)
    (hflag : s.eng.bIsCompiled = true) :
    notifyCompiled h s
      = s.call (.Callback fn (observe s.eng)) (h.callback fn (observe s.eng) s.world) := by
  simp [notifyCompiled, hcb, IsCompiled, hflag]

theorem notifyCompiled_trace (h : Host W) (s : St W) :
    ∃ seg, (notifyCompiled h s).trace = s.trace ++ seg := by
  unfold notifyCompiled
  split
  · split
    · exact ⟨_, rfl⟩
    · exact ⟨[], by simp⟩
  · exact ⟨[], by simp⟩

theorem foldl_watchBody_ext (h : Host W) (ds : List ShaderInformation) (s : St W) :
    ∃ seg, (ds.foldl (watchBody h) s).trace = s.trace ++ seg := by
  induction ds generalizing s with
  | nil => exact ⟨[], by simp⟩
  | cons d ds ih =>
    obtain ⟨seg, a1⟩ := ih (watchBody h s d)
    obtain ⟨-, -, -, ⟨rest, b1, -⟩, -⟩ := watchBody_spec h s d
    exact ⟨.FindFirstFileA d.hlslPath :: rest ++ seg, by
      simp only [List.foldl_cons, a1, b1]; simp⟩

theorem StartWatch_split (h : Host W) (s : St W) (done rest : List ShaderInformation)
    (d : ShaderInformation) (hreg : s.eng.mShadersInformation = done ++ d :: rest) :
    StartWatch h s
      = notifyCompiled h (rest.foldl (watchBody h) (watchBody h (reach h s done) d)) := by
  simp [StartWatch, reach, hreg, List.foldl_append]

theorem statFile_calls (h : Host W) (d : ShaderInformation) (s : St W) :
    (statFile h d s).2.eng = s.eng ∧
    ∀ c ∈ callsSince s (statFile h d s).2, c.isRead = false ∧ c.isCompile = false := by
  unfold statFile
  rcases hf : h.FindFirstFileA d.hlslPath s.world with ⟨_ | ⟨handle, ft⟩, w1⟩
  · simp [callsSince, St.call, Call.isRead, Call.isCompile]
  · simp [callsSince, St.call, Call.isRead, Call.isCompile]

theorem watchBody_unchanged (h : Host W) (d : ShaderInformation) (s s1 : St W)
    (ft : FILETIME) (hstat : statFile h d s = (some ft, s1))
    (heq : s.eng.mTimeChanged d.localName.addr = FileTimeToUInt64 ft) :
    watchBody h s d = s1 := by
  have he := (statFile_calls h d s).1
  rw [hstat] at he
  simp only [] at he
  simp [watchBody, hstat, he, heq]

theorem watchBody_changed (h : Host W) (d : ShaderInformation) (s s1 : St W)
    (ft : FILETIME) (hstat : statFile h d s = (some ft, s1))
    (hne : s.eng.mTimeChanged d.localName.addr ≠ FileTimeToUInt64 ft) :
    watchBody h s d =
      { (CompileFile h d s1).2 with
        eng := { (CompileFile h d s1).2.eng with
          mTimeChanged := Function.update (CompileFile h d s1).2.eng.mTimeChanged
            d.localName.addr (FileTimeToUInt64 ft) } } := by
  have he := (statFile_calls h d s).1
  rw [hstat] at he
  simp only [] at he
  simp [watchBody, hstat, he, hne]

theorem watchBody_stamp (h : Host W) (d : ShaderInformation) (s s1 : St W)
    (ft : FILETIME) (hstat : statFile h d s = (some ft, s1)) :
    (watchBody h s d).eng.mTimeChanged d.localName.addr = FileTimeToUInt64 ft := by
  by_cases heq : s.eng.mTimeChanged d.localName.addr = FileTimeToUInt64 ft
  · rw [watchBody_unchanged h d s s1 ft hstat heq]
    have he := (statFile_calls h d s).1
    rw [hstat] at he
    simp only [] at he
    rw [he, heq]
  · rw [watchBody_changed h d s s1 ft hstat heq]
    simp

theorem beginWatch_frame (s : St W) :
    (beginWatch s).eng.mShadersInformation = s.eng.mShadersInformation ∧
    (beginWatch s).eng.mTimeChanged = s.eng.mTimeChanged ∧
    (beginWatch s).eng.mCustomCallbackWhenShadersIsCompiled
      = s.eng.mCustomCallbackWhenShadersIsCompiled ∧
    (beginWatch s).eng.mCompiledPixelShader = s.eng.mCompiledPixelShader ∧
    (beginWatch s).eng.mCompiledVertexShader = s.eng.mCompiledVertexShader ∧
    (beginWatch s).trace = s.trace ∧ (beginWatch s).world = s.world :=
  ⟨rfl, rfl, rfl, rfl, rfl, rfl, rfl⟩

theorem StartWatch_registry (h : Host W) (s : St W) :
    (StartWatch h s).eng.mShadersInformation = s.eng.mShadersInformation ∧
    (StartWatch h s).eng.mCustomCallbackWhenShadersIsCompiled
      = s.eng.mCustomCallbackWhenShadersIsCompiled := by
  unfold StartWatch reach
  rw [notifyCompiled_eng]
  obtain ⟨a1, a2, -⟩ := foldl_watchBody_frame h s.eng.mShadersInformation (beginWatch s)
  exact ⟨a1, a2⟩

/-- After a cycle in which the descriptor `d`, whose key no later descriptor shares, was
found, the stored timestamp of `d` is the timestamp of its file. -/
theorem StartWatch_stamp (h : Host W) (s s1 : St W) (done rest : List ShaderInformation)
    (d : ShaderInformation) (ft : FILETIME)
    (hreg : s.eng.mShadersInformation = done ++ d :: rest)
    (hkey : ∀ x ∈ rest, x.localName.addr ≠ d.localName.addr)
    (hstat : statFile h d (reach h s done) = (some ft, s1)) :
    (StartWatch h s).eng.mTimeChanged d.localName.addr = FileTimeToUInt64 ft := by
  rw [StartWatch_split h s done rest d hreg, notifyCompiled_eng,
    (foldl_watchBody_frame h rest _).2.2.1 _ hkey]
  exact watchBody_stamp h d _ s1 ft hstat

/-- In a cycle the descriptor `d`, whose key no earlier descriptor shares, is met with
the timestamp that was stored when the cycle began. -/
theorem reach_stamp (h : Host W) (s : St W) (done : List ShaderInformation)
    (d : ShaderInformation) (hkey : ∀ x ∈ done, x.localName.addr ≠ d.localName.addr) :
    (reach h s done).eng.mTimeChanged d.localName.addr
      = s.eng.mTimeChanged d.localName.addr := by
  unfold reach
  rw [(foldl_watchBody_frame h done _).2.2.1 _ hkey]
  rfl

theorem watchBody_notfound (h : Host W) (d : ShaderInformation) (s : St W)
    (hstat : (statFile h d s).1 = none) : watchBody h s d = (statFile h d s).2 := by
  unfold watchBody
  rcases hS : statFile h d s with ⟨o, s1⟩
  rw [hS] at hstat
  simp only [] at hstat
  subst hstat
  rfl

theorem statFile_eng_eq (h : Host W) (d : ShaderInformation) (s s1 : St W)
    (o : Option FILETIME) (hstat : statFile h d s = (o, s1)) : s1.eng = s.eng := by
  have := (statFile_calls h d s).1
  rwa [hstat] at this

/-- When the read succeeds and the compiler fails, `CompileFile` leaves the engine as it
was. -/
theorem CompileFile_compiler_failure (h : Host W) (d : ShaderInformation) (s1 s2 : St W)
    (buf : List Nat) (err : Option Nat)
    (hread : ReadFile h d.hlslPath s1 = (some buf, s2))
    (hcomp : (h.D3DCompile buf d.entryPoint d.shaderVersion s2.world).1 = .error err) :
    (CompileFile h d s1).2.eng = s1.eng ∧ (CompileFile h d s1).1 = false := by
  have he : s2.eng = s1.eng := by
    have := ReadFile_eng h d.hlslPath s1
    rwa [hread] at this
  unfold CompileFile
  rw [hread]
  simp only []
  rcases hD : h.D3DCompile buf d.entryPoint d.shaderVersion s2.world with ⟨r, w2⟩
  rw [hD] at hcomp
  simp only [] at hcomp
  subst hcomp
  cases err <;> simp [St.call, he]

/-! ## C1: a failed read and the stored timestamp -/

/-- C1, as stated, fails. One vertex descriptor is registered with the stored timestamp
`0`; its file is found with the timestamp `7` and cannot be opened, so `ReadFile` fails.
After the cycle the stored timestamp is `7`, not the `0` it was before, and the next cycle
over the same file only stats it: the read is not attempted again. -/
theorem C1_read_failure_timestamp_counterexample :
    vertexOnly.eng.mShadersInformation = [demoVertex] ∧
    (statFile lockedScript.host demoVertex (reach lockedScript.host vertexOnly [])).1
      = some ⟨7, 0⟩ ∧
    (reach lockedScript.host vertexOnly []).eng.mTimeChanged demoVertex.localName.addr
      ≠ FileTimeToUInt64 ⟨7, 0⟩ ∧
    (ReadFile lockedScript.host demoVertex.hlslPath
      (statFile lockedScript.host demoVertex (reach lockedScript.host vertexOnly [])).2).1
      = none ∧
    vertexOnly.eng.mTimeChanged demoVertex.localName.addr = 0 ∧
    (StartWatch lockedScript.host vertexOnly).eng.mTimeChanged demoVertex.localName.addr
      = 7 ∧
    callsSince (StartWatch lockedScript.host vertexOnly)
        (StartWatch lockedScript.host (StartWatch lockedScript.host vertexOnly))
      = [.FindFirstFileA "VertexShader.hlsl", .FindClose 900] := by
  decide

/-- C1, amended. Let the descriptor `d` be registered, its name key shared by no other
descriptor, and let a watch cycle meet it with a file that stats to a timestamp different
from the stored one, and whose read then fails. Then processing `d` changes nothing in the
engine but the stored timestamp of `d`, which becomes the file's timestamp; it still is
that after the cycle; and in the next cycle, whatever the world `w2` has become, if the
file still stats to that timestamp then no read and no compile call is made for `d`. -/
theorem C1_read_failure_advances_timestamp (h h2 : Host W) (s s1 : St W)
    (done rest : List ShaderInformation) (d : ShaderInformation) (ft : FILETIME)
    (hreg : s.eng.mShadersInformation = done ++ d :: rest)
    (hkey : ∀ x ∈ done ++ rest, x.localName.addr ≠ d.localName.addr)
    (hstat : statFile h d (reach h s done) = (some ft, s1))
    (hne : (reach h s done).eng.mTimeChanged d.localName.addr ≠ FileTimeToUInt64 ft)
    (hread : (ReadFile h d.hlslPath s1).1 = none) :
    (watchBody h (reach h s done) d).eng =
      { (reach h s done).eng with
        mTimeChanged := Function.update (reach h s done).eng.mTimeChanged
          d.localName.addr (FileTimeToUInt64 ft) } ∧
    (StartWatch h s).eng.mTimeChanged d.localName.addr = FileTimeToUInt64 ft ∧
    ∀ (w2 : W) (ft2 : FILETIME),
      (statFile h2 d (reach h2 { StartWatch h s with world := w2 } done)).1 = some ft2 →
      FileTimeToUInt64 ft2 = FileTimeToUInt64 ft →
      ∀ c ∈ callsSince (reach h2 { StartWatch h s with world := w2 } done)
          (watchBody h2 (reach h2 { StartWatch h s with world := w2 } done) d),
        c.isRead = false ∧ c.isCompile = false := by
  have hs1 : s1.eng = (reach h s done).eng := by
    have := (statFile_calls h d (reach h s done)).1
    rwa [hstat] at this
  have hfin : (StartWatch h s).eng.mTimeChanged d.localName.addr = FileTimeToUInt64 ft :=
    StartWatch_stamp h s s1 done rest d ft hreg
      (fun x hx => hkey x (List.mem_append_right _ hx)) hstat
  refine ⟨?_, hfin, ?_⟩
  · rw [watchBody_changed h d _ s1 ft hstat hne]
    have hc : (CompileFile h d s1).2.eng = s1.eng := by
      unfold CompileFile
      rcases hR : ReadFile h d.hlslPath s1 with ⟨o, s2⟩
      rw [hR] at hread
      simp only [] at hread
      subst hread
      have := ReadFile_eng h d.hlslPath s1
      rw [hR] at this
      exact this
    simp only [hc, hs1]
  · intro w2 ft2 hst2 htok c hc
    have hmid : (reach h2 { StartWatch h s with world := w2 } done).eng.mTimeChanged
        d.localName.addr = FileTimeToUInt64 ft2 := by
      rw [reach_stamp h2 _ done d (fun x hx => hkey x (List.mem_append_left _ hx)), htok]
      exact hfin
    rw [watchBody_unchanged h2 d _ _ ft2 (Prod.ext hst2 rfl) hmid] at hc
    exact (statFile_calls h2 d _).2 c hc

/-- C1, amended, on a run: the vertex descriptor of the demo, its file found with the
timestamp `7` but locked. -/
theorem C1_read_failure_advances_timestamp_witness :
    (StartWatch lockedScript.host vertexOnly).eng.mTimeChanged demoVertex.localName.addr
      = FileTimeToUInt64 ⟨7, 0⟩ :=
  (C1_read_failure_advances_timestamp lockedScript.host lockedScript.host vertexOnly
    (statFile lockedScript.host demoVertex (reach lockedScript.host vertexOnly [])).2
    [] [] demoVertex ⟨7, 0⟩ (by decide) (by simp) rfl (by decide) (by decide)).2.1

/-! ## C2: a failed compile -/

/-- C2, as stated, fails in two ways once descriptors share a kind or a name key.
First run: two vertex descriptors with names of their own; the compiler rejects the source
of `twinVertex`, whose file was found changed and was read, and accepts that of
`demoVertex`; the vertex slot, empty before the cycle, holds the object `1011` after it.
Second run: a vertex and a pixel descriptor registered under one name pointer, their
files at the timestamps `7` and `9`, the compiler rejecting both; after the cycle the
timestamp stored under that pointer is `9`, not the `7` of the vertex file, and the next
cycle over the same files reads the vertex source again. -/
theorem C2_compile_failure_counterexample :
    twoVertexEngine.eng.mShadersInformation = [twinVertex, demoVertex] ∧
    (statFile pixelBrokenScript.host twinVertex
      (reach pixelBrokenScript.host twoVertexEngine [])).1 = some ⟨7, 0⟩ ∧
    (reach pixelBrokenScript.host twoVertexEngine []).eng.mTimeChanged
      twinVertex.localName.addr ≠ FileTimeToUInt64 ⟨7, 0⟩ ∧
    (ReadFile pixelBrokenScript.host twinVertex.hlslPath
      (statFile pixelBrokenScript.host twinVertex
        (reach pixelBrokenScript.host twoVertexEngine [])).2).1 = some [2, 2, 2] ∧
    (pixelBrokenScript.host.D3DCompile [2, 2, 2] twinVertex.entryPoint
      twinVertex.shaderVersion
      (ReadFile pixelBrokenScript.host twinVertex.hlslPath
        (statFile pixelBrokenScript.host twinVertex
          (reach pixelBrokenScript.host twoVertexEngine [])).2).2.world).1 = .error none ∧
    compiledShader twoVertexEngine.eng twinVertex.localShaderType = none ∧
    compiledShader (StartWatch pixelBrokenScript.host twoVertexEngine).eng
      twinVertex.localShaderType = some 1011 ∧
    aliasEngine.eng.mShadersInformation = [demoVertex, aliasPixel] ∧
    (statFile staggeredScript.host demoVertex
      (reach staggeredScript.host aliasEngine [])).1 = some ⟨7, 0⟩ ∧
    (reach staggeredScript.host aliasEngine []).eng.mTimeChanged
      demoVertex.localName.addr ≠ FileTimeToUInt64 ⟨7, 0⟩ ∧
    (ReadFile staggeredScript.host demoVertex.hlslPath
      (statFile staggeredScript.host demoVertex
        (reach staggeredScript.host aliasEngine [])).2).1 = some [1, 1, 1] ∧
    (staggeredScript.host.D3DCompile [1, 1, 1] demoVertex.entryPoint
      demoVertex.shaderVersion
      (ReadFile staggeredScript.host demoVertex.hlslPath
        (statFile staggeredScript.host demoVertex
          (reach staggeredScript.host aliasEngine [])).2).2.world).1 = .error (some 66) ∧
    (StartWatch staggeredScript.host aliasEngine).eng.mTimeChanged
      demoVertex.localName.addr = 9 ∧
    Call.CreateFileA "VertexShader.hlsl"
      ∈ callsSince (StartWatch staggeredScript.host aliasEngine)
        (StartWatch staggeredScript.host (StartWatch staggeredScript.host aliasEngine)) := by
  refine ⟨by decide, by decide, by decide, by decide, rfl, by decide, by decide, by decide,
    by decide, by decide, by decide, rfl, by decide, by decide⟩

/-- C2, amended. Let a watch cycle meet the registered descriptor `d`, whose name key no
other descriptor shares, with a file that stats to a timestamp different from the stored
one and is read successfully, and let `D3DCompile` fail on it. Then processing `d` changes
nothing in the engine but the stored timestamp of `d`: both artifact slots, the event list
and the flag are as they were, and the timestamp is the file's. After the cycle the
timestamp is still the file's, and if no other descriptor has the kind of `d`, the
artifact of that kind is the one from before the cycle. In a following cycle, whatever the
world `w2` has become, if the file still stats to that timestamp then no read and no
compile call is made for `d`. -/
theorem C2_compile_failure_keeps_artifact (h h2 : Host W) (s s1 s2 : St W)
    (done rest : List ShaderInformation) (d : ShaderInformation) (ft : FILETIME)
    (buf : List Nat) (err : Option Nat)
    (hreg : s.eng.mShadersInformation = done ++ d :: rest)
    (hkey : ∀ x ∈ done ++ rest, x.localName.addr ≠ d.localName.addr)
    (hstat : statFile h d (reach h s done) = (some ft, s1))
    (hne : (reach h s done).eng.mTimeChanged d.localName.addr ≠ FileTimeToUInt64 ft)
    (hread : ReadFile h d.hlslPath s1 = (some buf, s2))
    (hcomp : (h.D3DCompile buf d.entryPoint d.shaderVersion s2.world).1 = .error err) :
    (watchBody h (reach h s done) d).eng =
      { (reach h s done).eng with
        mTimeChanged := Function.update (reach h s done).eng.mTimeChanged
          d.localName.addr (FileTimeToUInt64 ft) } ∧
    compiledAt h (reach h s done) d = false ∧
    (StartWatch h s).eng.mTimeChanged d.localName.addr = FileTimeToUInt64 ft ∧
    ((∀ x ∈ done ++ rest, x.localShaderType ≠ d.localShaderType) →
      compiledShader (StartWatch h s).eng d.localShaderType
        = compiledShader s.eng d.localShaderType) ∧
    ∀ (w2 : W) (ft2 : FILETIME),
      (statFile h2 d (reach h2 { StartWatch h s with world := w2 } done)).1 = some ft2 →
      FileTimeToUInt64 ft2 = FileTimeToUInt64 ft →
      ∀ c ∈ callsSince (reach h2 { StartWatch h s with world := w2 } done)
          (watchBody h2 (reach h2 { StartWatch h s with world := w2 } done) d),
        c.isRead = false ∧ c.isCompile = false := by
  have hs1 : s1.eng = (reach h s done).eng := statFile_eng_eq h d _ s1 _ hstat
  obtain ⟨hc, hcf⟩ := CompileFile_compiler_failure h d s1 s2 buf err hread hcomp
  have hfin : (StartWatch h s).eng.mTimeChanged d.localName.addr = FileTimeToUInt64 ft :=
    StartWatch_stamp h s s1 done rest d ft hreg
      (fun x hx => hkey x (List.mem_append_right _ hx)) hstat
  have hbody : (watchBody h (reach h s done) d).eng =
      { (reach h s done).eng with
        mTimeChanged := Function.update (reach h s done).eng.mTimeChanged
          d.localName.addr (FileTimeToUInt64 ft) } := by
    rw [watchBody_changed h d _ s1 ft hstat hne]
    simp only [hc, hs1]
  refine ⟨hbody, ?_, hfin, ?_, ?_⟩
  · simp [compiledAt, hstat, hcf]
  · intro hkind
    rw [StartWatch_split h s done rest d hreg, notifyCompiled_eng,
      (foldl_watchBody_frame h rest _).2.2.2.1 _
        (fun x hx => hkind x (List.mem_append_right _ hx)), hbody]
    have := (foldl_watchBody_frame h done (beginWatch s)).2.2.2.1 d.localShaderType
      (fun x hx => hkind x (List.mem_append_left _ hx))
    cases hk : d.localShaderType <;>
      simpa [hk, compiledShader, GetCompiledVertexShader, GetCompiledPixelShader, reach,
        beginWatch] using this
  · intro w2 ft2 hst2 htok c hc
    have hmid : (reach h2 { StartWatch h s with world := w2 } done).eng.mTimeChanged
        d.localName.addr = FileTimeToUInt64 ft2 := by
      rw [reach_stamp h2 _ done d (fun x hx => hkey x (List.mem_append_left _ hx)), htok]
      exact hfin
    rw [watchBody_unchanged h2 d _ _ ft2 (Prod.ext hst2 rfl) hmid] at hc
    exact (statFile_calls h2 d _).2 c hc

/-- C2, amended, on a run: the demo engine with its pixel and its vertex descriptor, the
compiler rejecting both sources; the statement is taken at the vertex descriptor, the
second one met. -/
theorem C2_compile_failure_keeps_artifact_witness :
    (StartWatch brokenScript.host demoEngine).eng.mTimeChanged demoVertex.localName.addr
      = FileTimeToUInt64 ⟨7, 0⟩ ∧
    compiledShader (StartWatch brokenScript.host demoEngine).eng demoVertex.localShaderType
      = compiledShader demoEngine.eng demoVertex.localShaderType :=
  have key := C2_compile_failure_keeps_artifact brokenScript.host brokenScript.host
    demoEngine
    (statFile brokenScript.host demoVertex (reach brokenScript.host demoEngine [demoPixel])).2
    (ReadFile brokenScript.host demoVertex.hlslPath
      (statFile brokenScript.host demoVertex
        (reach brokenScript.host demoEngine [demoPixel])).2).2
    [demoPixel] [] demoVertex ⟨7, 0⟩ [1, 1, 1] (some 66) (by decide) (by decide) rfl
    (by decide) rfl rfl
  ⟨key.2.2.1, key.2.2.2.1 (by decide)⟩

/-! ## C3: an unchanged file -/

/-- C3. Let the loop of a watch cycle meet the descriptor `d` (in the state
`reach h s done`). A read call is made for `d` exactly when its file stats successfully
to a timestamp that differs, in either direction, from the stored one. And if the file
stats to the stored timestamp, then processing `d` leaves the whole engine as it was
(timestamps, both artifact slots, event list, flag) and makes no read and no compile
call. The stored timestamp that `d` is met with is the one from before the cycle, when no
descriptor before `d` shares its name key. -/
theorem C3_unchanged_file_is_skipped (h : Host W) (s : St W)
    (done : List ShaderInformation) (d : ShaderInformation) :
    ((∃ c ∈ callsSince (reach h s done) (watchBody h (reach h s done) d), c.isRead = true) ↔
      ∃ ft, (statFile h d (reach h s done)).1 = some ft ∧
        (reach h s done).eng.mTimeChanged d.localName.addr ≠ FileTimeToUInt64 ft) ∧
    (∀ ft, (statFile h d (reach h s done)).1 = some ft →
      (reach h s done).eng.mTimeChanged d.localName.addr = FileTimeToUInt64 ft →
      (watchBody h (reach h s done) d).eng = (reach h s done).eng ∧
      ∀ c ∈ callsSince (reach h s done) (watchBody h (reach h s done) d),
        c.isRead = false ∧ c.isCompile = false) ∧
    ((∀ x ∈ done, x.localName.addr ≠ d.localName.addr) →
      (reach h s done).eng.mTimeChanged d.localName.addr
        = s.eng.mTimeChanged d.localName.addr) := by
  rw [← and_assoc]
  refine ⟨?_, reach_stamp h s done d⟩
  generalize reach h s done = m
  have hun : ∀ ft, (statFile h d m).1 = some ft →
      m.eng.mTimeChanged d.localName.addr = FileTimeToUInt64 ft →
      (watchBody h m d).eng = m.eng ∧
      ∀ c ∈ callsSince m (watchBody h m d), c.isRead = false ∧ c.isCompile = false := by
    intro ft hst heq
    rw [watchBody_unchanged h d m _ ft (Prod.ext hst rfl) heq]
    exact statFile_calls h d m
  refine ⟨⟨?_, ?_⟩, hun⟩
  · rintro ⟨c, hc, hr⟩
    rcases hst : (statFile h d m).1 with _ | ft
    · rw [watchBody_notfound h d m hst] at hc
      have := ((statFile_calls h d m).2 c hc).1
      rw [hr] at this
      exact absurd this (by simp)
    · refine ⟨ft, rfl, fun heq => ?_⟩
      have := ((hun ft hst heq).2 c hc).1
      rw [hr] at this
      exact absurd this (by simp)
  · rintro ⟨ft, hst, hne⟩
    obtain ⟨-, seg0, hseg0, -⟩ := statFile_spec h d m
    obtain ⟨-, ⟨seg1, hseg1⟩, -⟩ := CompileFile_spec h d (statFile h d m).2
    have htr : (watchBody h m d).trace
        = m.trace ++ (.FindFirstFileA d.hlslPath :: seg0 ++ .CreateFileA d.hlslPath :: seg1) := by
      rw [watchBody_changed h d m _ ft (Prod.ext hst rfl) hne]
      simp only [hseg1, hseg0]
      simp
    rw [callsSince_eq htr]
    exact ⟨.CreateFileA d.hlslPath, by simp, rfl⟩

/-- C3 on a run: the second of two cycles over the same files, where the vertex
descriptor of the demo is met with the stored timestamp `7` and a file still at `7`. -/
theorem C3_unchanged_file_is_skipped_witness :
    (watchBody goodScript.host
        (reach goodScript.host (StartWatch goodScript.host demoEngine) [demoPixel])
        demoVertex).eng
      = (reach goodScript.host (StartWatch goodScript.host demoEngine) [demoPixel]).eng :=
  ((C3_unchanged_file_is_skipped goodScript.host (StartWatch goodScript.host demoEngine)
    [demoPixel] demoVertex).2.1 ⟨7, 0⟩ (by decide) (by decide)).1

/-! ## C4: the callback runs once per cycle with a compile, and not otherwise -/

theorem reach_summary (h : Host W) (s : St W) :
    (reach h s s.eng.mShadersInformation).eng.mCustomCallbackWhenShadersIsCompiled
      = s.eng.mCustomCallbackWhenShadersIsCompiled ∧
    (reach h s s.eng.mShadersInformation).eng.bIsCompiled
      = !(compiledInCycle h s).isEmpty ∧
    (reach h s s.eng.mShadersInformation).eng.mCompiledShaders
      = (compiledInCycle h s).map (fun d => (⟨d.localShaderType⟩ : CompiledQueue)) ∧
    ∃ seg, (reach h s s.eng.mShadersInformation).trace = s.trace ++ seg ∧
      seg.filter Call.isStat
        = s.eng.mShadersInformation.map (fun d => Call.FindFirstFileA d.hlslPath) ∧
      seg.countP Call.isCallback = 0 := by
  obtain ⟨-, a2, -⟩ := foldl_watchBody_frame h s.eng.mShadersInformation (beginWatch s)
  obtain ⟨b1, b2⟩ := foldl_watchBody_compiled h s.eng.mShadersInformation (beginWatch s)
  obtain ⟨seg, c1, c2, c3⟩ := foldl_watchBody_trace h s.eng.mShadersInformation (beginWatch s)
  refine ⟨a2, ?_, ?_, seg, c1, c2, ?_⟩
  · simpa [reach, compiledInCycle, beginWatch] using b1
  · simpa [reach, compiledInCycle, beginWatch] using b2
  · rw [List.countP_eq_length_filter, c3]; rfl

/-- C4. For every engine state with a registered callback `fn` and every host, the number
of callback invocations made by one watch cycle is `1` if the cycle compiled at least one
descriptor successfully and `0` if it compiled none; so it is never more than `1`. When
it runs, the callback is the last call of the cycle. Here a descriptor `d` is compiled in
the cycle exactly when the loop, having gone through the descriptors `done` before it,
finds its file changed and `CompileFile` returns `true`. -/
theorem C4_callback_exactly_once (h : Host W) (s : St W) (fn : Nat)
    (hcb : s.eng.mCustomCallbackWhenShadersIsCompiled = some fn) :
    (callsSince s (StartWatch h s)).countP Call.isCallback
      = (if compiledInCycle h s = [] then 0 else 1) ∧
    (callsSince s (StartWatch h s)).countP Call.isCallback ≤ 1 ∧
    (compiledInCycle h s ≠ [] →
      (StartWatch h s).trace.getLast? = some (.Callback fn (observe (StartWatch h s).eng))) ∧
    ∀ d, d ∈ compiledInCycle h s ↔
      ∃ done rest, s.eng.mShadersInformation = done ++ d :: rest ∧
        compiledAt h (reach h s done) d = true := by
  obtain ⟨r1, r2, -, seg, r4, -, r6⟩ := reach_summary h s
  have hmem : ∀ d, d ∈ compiledInCycle h s ↔
      ∃ done rest, s.eng.mShadersInformation = done ++ d :: rest ∧
        compiledAt h (reach h s done) d = true :=
    fun d => mem_compiledFrom h d s.eng.mShadersInformation (beginWatch s)
  rw [hcb] at r1
  by_cases hemp : compiledInCycle h s = []
  · have hflag : (reach h s s.eng.mShadersInformation).eng.bIsCompiled = false := by
      rw [r2, hemp]; rfl
    have hsw : StartWatch h s = reach h s s.eng.mShadersInformation := by
      simp [StartWatch, notifyCompiled, r1, IsCompiled, hflag]
    have hcount : (callsSince s (StartWatch h s)).countP Call.isCallback = 0 := by
      rw [hsw, callsSince_eq r4, r6]
    exact ⟨by rw [hcount, if_pos hemp], by rw [hcount]; exact Nat.zero_le _,
      fun hne => absurd hemp hne, hmem⟩
  · have hflag : (reach h s s.eng.mShadersInformation).eng.bIsCompiled = true := by
      rw [r2]
      cases hc : compiledInCycle h s with
      | nil => exact absurd hc hemp
      | cons x xs => rfl
    have hsw : StartWatch h s = (reach h s s.eng.mShadersInformation).call
        (.Callback fn (observe (reach h s s.eng.mShadersInformation).eng))
        (h.callback fn (observe (reach h s s.eng.mShadersInformation).eng)
          (reach h s s.eng.mShadersInformation).world) := by
      simp [StartWatch, notifyCompiled, r1, IsCompiled, hflag]
    have htr : (StartWatch h s).trace = s.trace ++ (seg ++
        [.Callback fn (observe (reach h s s.eng.mShadersInformation).eng)]) := by
      rw [hsw]; simp [St.call, r4]
    have hcount : (callsSince s (StartWatch h s)).countP Call.isCallback = 1 := by
      rw [callsSince_eq htr, List.countP_append, r6]
      simp [Call.isCallback]
    refine ⟨by rw [hcount, if_neg hemp], by rw [hcount], fun _ => ?_, hmem⟩
    rw [htr, ← List.append_assoc, List.getLast?_append]
    simp [hsw, St.call]

/-- C4 on two runs: a cycle over the two demo files that compiles both, and the cycle
after it, over the same files, that compiles none. -/
theorem C4_callback_exactly_once_witness :
    (callsSince demoEngine (StartWatch goodScript.host demoEngine)).countP Call.isCallback
      = 1 ∧
    (callsSince (StartWatch goodScript.host demoEngine)
      (StartWatch goodScript.host (StartWatch goodScript.host demoEngine))).countP
        Call.isCallback = 0 :=
  ⟨(C4_callback_exactly_once goodScript.host demoEngine 1 (by decide)).1,
    (C4_callback_exactly_once goodScript.host (StartWatch goodScript.host demoEngine) 1
      (by decide)).1⟩

/-! ## C5: the flag and the event list agree -/

/-- C5. In every state reachable from construction by `AddNewBundle`, `ActionIfCompiled`
and watch cycles, `IsCompiled()` is true if and only if `GetCompiledShadersType()` is
non-empty; and the same holds of what every callback invocation made so far observed
through the two getters at the moment it ran. -/
theorem C5_flag_iff_events (h : Host W) (s : St W) (hs : Reachable h s) :
    (IsCompiled s.eng = true ↔ GetCompiledShadersType s.eng ≠ []) ∧
    ∀ fn seen, Call.Callback fn seen ∈ s.trace →
      (seen.isCompiled = true ↔ seen.compiledShadersType ≠ []) := by
  induction hs with
  | construct w => simp [IsCompiled, GetCompiledShadersType, HotReloadableShades.new]
  | AddNewBundle information _ ih => exact ih
  | ActionIfCompiled callback _ ih => exact ih
  | world w _ ih => exact ih
  | @Start s _ ih =>
    obtain ⟨-, r2, r3, seg, r4, -, r6⟩ := reach_summary h s
    have hinv : ((reach h s s.eng.mShadersInformation).eng.bIsCompiled = true ↔
        (reach h s s.eng.mShadersInformation).eng.mCompiledShaders ≠ []) := by
      rw [r2, r3]
      cases compiledInCycle h s <;> simp
    have hseg : ∀ fn seen, Call.Callback fn seen ∉ seg := by
      intro fn seen hm
      have := List.countP_pos_iff.2 ⟨_, hm, (rfl : (Call.Callback fn seen).isCallback = true)⟩
      omega
    unfold Start StartWatch
    refine ⟨by rw [notifyCompiled_eng]; exact hinv, ?_⟩
    intro fn seen hm
    have hold : Call.Callback fn seen ∈ (reach h s s.eng.mShadersInformation).trace →
        (seen.isCompiled = true ↔ seen.compiledShadersType ≠ []) := by
      intro hm
      rw [r4] at hm
      rcases List.mem_append.1 hm with hm | hm
      · exact ih.2 fn seen hm
      · exact absurd hm (hseg fn seen)
    unfold notifyCompiled at hm
    split at hm
    · split at hm
      · simp only [St.call, List.mem_append, List.mem_singleton, Call.Callback.injEq] at hm
        rcases hm with hm | ⟨-, rfl⟩
        · exact hold hm
        · exact hinv
      · exact hold hm
    · exact hold hm

/-- C5 on a run: the state after the engine was constructed, given a callback and the two
demo descriptors, and ran one cycle that compiled both. -/
theorem C5_flag_iff_events_witness :
    (IsCompiled (Start goodScript.host demoEngine).eng = true ↔
      GetCompiledShadersType (Start goodScript.host demoEngine).eng ≠ []) :=
  (C5_flag_iff_events goodScript.host (Start goodScript.host demoEngine)
    (Reachable.Start (Reachable.AddNewBundle demoVertex (Reachable.AddNewBundle demoPixel
      (Reachable.ActionIfCompiled (some 1) (Reachable.construct 0)))))).1

/-! ## C6: compile, recompile after an edit, then rest -/

/-- Under a host that serves the vertex descriptor `d`, met with a stored timestamp other
than the file's, the step for `d` stores the shader object and the file's timestamp. -/
theorem watchBody_serves (h : Host W) (d : ShaderInformation) (T : Nat) (X : List Nat)
    (a : Nat) (s : St W) (hserve : ServesVertex h d T X a)
    (hkind : d.localShaderType = .VertexShader)
    (hne : s.eng.mTimeChanged d.localName.addr ≠ T) :
    (watchBody h s d).eng.mCompiledVertexShader = some a ∧
    (watchBody h s d).eng.mTimeChanged d.localName.addr = T := by
  obtain ⟨hst, hrd, blob, hcomp, hdev⟩ := hserve
  obtain ⟨ft, hft, htok⟩ := hst s
  subst htok
  refine ⟨?_, watchBody_stamp h d s _ ft (Prod.ext hft rfl)⟩
  rw [watchBody_changed h d s _ ft (Prod.ext hft rfl) hne]
  simp only []
  have hR := hrd (statFile h d s).2
  unfold CompileFile
  rcases hRR : ReadFile h d.hlslPath (statFile h d s).2 with ⟨o, s2⟩
  rw [hRR] at hR
  simp only [] at hR
  subst hR
  simp only []
  have hD := hcomp s2.world
  rcases hDD : h.D3DCompile X d.entryPoint d.shaderVersion s2.world with ⟨r, w2⟩
  rw [hDD] at hD
  simp only [] at hD
  subst hD
  simp only [hkind]
  unfold CreateVertexShader
  rcases hslot : (s2.call (.D3DCompile X d.entryPoint d.shaderVersion) w2).eng.mCompiledVertexShader
    with _ | old
  · simp only []
    have hV := hdev (s2.call (.D3DCompile X d.entryPoint d.shaderVersion) w2).world
    rcases hVV : h.CreateVertexShader d.renderDevices.mRenderDevice blob
      (s2.call (.D3DCompile X d.entryPoint d.shaderVersion) w2).world with ⟨o, w3⟩
    rw [hVV] at hV
    simp only [] at hV
    subst hV
    rfl
  · simp only []
    have hV := hdev (h.Release old (s2.call (.D3DCompile X d.entryPoint d.shaderVersion) w2).world)
    rcases hVV : h.CreateVertexShader d.renderDevices.mRenderDevice blob
      (h.Release old (s2.call (.D3DCompile X d.entryPoint d.shaderVersion) w2).world)
      with ⟨o, w3⟩
    rw [hVV] at hV
    simp only [] at hV
    subst hV
    simp only [St.call] at hVV ⊢
    simp [hVV]

/-- A cycle over the single descriptor `d`, served by the host, whose stored timestamp is
not the file's: the vertex slot holds the new shader object, the timestamp is the file's,
and the registry and callback are kept. -/
theorem cycleIn_serves (h : Host W) (d : ShaderInformation) (T : Nat) (X : List Nat)
    (a : Nat) (s : St W) (w : W) (hserve : ServesVertex h d T X a)
    (hkind : d.localShaderType = .VertexShader)
    (hreg : s.eng.mShadersInformation = [d])
    (hne : s.eng.mTimeChanged d.localName.addr ≠ T) :
    GetCompiledVertexShader (cycleIn h w s).eng = some a ∧
    (cycleIn h w s).eng.mTimeChanged d.localName.addr = T ∧
    (cycleIn h w s).eng.mShadersInformation = [d] := by
  have hb := watchBody_serves h d T X a (beginWatch { s with world := w }) hserve hkind hne
  have hsw : (cycleIn h w s).eng = (watchBody h (beginWatch { s with world := w }) d).eng := by
    simp [cycleIn, StartWatch, reach, hreg, notifyCompiled_eng]
  refine ⟨by rw [GetCompiledVertexShader, hsw]; exact hb.1, by rw [hsw]; exact hb.2, ?_⟩
  rw [hsw, (watchBody_spec h _ d).1]
  exact hreg

/-- C6, as stated, fails for the timestamp `T0 = 0`, the value `AddNewBundle` stores for
a descriptor that was never compiled. The host serves the vertex file of the demo with
the timestamp `0`, content `[1, 1, 1]` and shader object `1011`; a second host serves it
with the later timestamp `8`. After the first cycle of the freshly registered descriptor
the vertex slot is still empty. -/
theorem C6_edit_scenario_counterexample :
    ServesVertex zeroScript.host demoVertex 0 [1, 1, 1] 1011 ∧
    ServesVertex editedScript.host demoVertex 8 [5] 1015 ∧
    0 < 8 ∧
    demoVertex.localShaderType = .VertexShader ∧
    vertexOnly.eng = AddNewBundle (ActionIfCompiled HotReloadableShades.new (some 1))
      demoVertex ∧
    GetCompiledVertexShader (cycleIn zeroScript.host 0 vertexOnly).eng = none := by
  refine ⟨⟨fun s => ⟨⟨0, 0⟩, by simp [statFile, Script.host, zeroScript, goodScript],
      by decide⟩, fun s => ?_, 11, fun w => rfl, fun w => rfl⟩,
    ⟨fun s => ⟨⟨8, 0⟩, by simp [statFile, Script.host, editedScript, goodScript],
      by decide⟩, fun s => ?_, 15, fun w => rfl, fun w => rfl⟩,
    by decide, rfl, rfl, by decide⟩
  · simp [ReadFile, ReadFileLoop, maxAttempts, Script.host, zeroScript, goodScript, demoOpen,
      demoVertex, St.call, fillBuffer]
  · simp [ReadFile, ReadFileLoop, maxAttempts, Script.host, editedScript, goodScript,
      demoOpen, demoVertex, St.call, fillBuffer]

/-- C6, amended: the first timestamp is not `0`. Let `0 < T0 < T1`, and let `d` be a
vertex descriptor registered alone on a fresh engine (with any callback `cb`). If the
first cycle runs under a host serving the file with timestamp `T0`, content `X` and
shader object `aX`, the vertex slot then holds `aX`; if the second runs under a host
serving it with timestamp `T1`, content `Y` and shader object `aY`, the slot then holds
`aY`; and a third cycle, under any host that stats the file to `T1`, makes no callback
invocation and leaves `aY` in the slot. The worlds `w1 w2 w3` in which the cycles start
are arbitrary. -/
theorem C6_edit_scenario (h1 h2 h3 : Host W) (d : ShaderInformation) (cb : Option Nat)
    (T0 T1 : Nat) (X Y : List Nat) (aX aY : Nat) (w1 w2 w3 : W) (tr : List Call)
    (hT0 : 0 < T0) (hlt : T0 < T1)
    (hkind : d.localShaderType = .VertexShader)
    (hserve1 : ServesVertex h1 d T0 X aX)
    (hserve2 : ServesVertex h2 d T1 Y aY)
    (hstill : ∀ s : St W, ∃ ft, (statFile h3 d s).1 = some ft ∧ FileTimeToUInt64 ft = T1) :
    GetCompiledVertexShader
      (cycleIn h1 w1 ⟨AddNewBundle (ActionIfCompiled .new cb) d, w1, tr⟩).eng = some aX ∧
    GetCompiledVertexShader
      (cycleIn h2 w2 (cycleIn h1 w1 ⟨AddNewBundle (ActionIfCompiled .new cb) d, w1, tr⟩)).eng
      = some aY ∧
    GetCompiledVertexShader
      (cycleIn h3 w3 (cycleIn h2 w2
        (cycleIn h1 w1 ⟨AddNewBundle (ActionIfCompiled .new cb) d, w1, tr⟩))).eng
      = some aY ∧
    (callsSince
      (cycleIn h2 w2 (cycleIn h1 w1 ⟨AddNewBundle (ActionIfCompiled .new cb) d, w1, tr⟩))
      (cycleIn h3 w3 (cycleIn h2 w2
        (cycleIn h1 w1 ⟨AddNewBundle (ActionIfCompiled .new cb) d, w1, tr⟩)))).countP
      Call.isCallback = 0 := by
  generalize hs0 : (⟨AddNewBundle (ActionIfCompiled .new cb) d, w1, tr⟩ : St W) = s0
  have hreg0 : s0.eng.mShadersInformation = [d] := by
    subst hs0; simp [AddNewBundle, ActionIfCompiled, HotReloadableShades.new]
  have hst0 : s0.eng.mTimeChanged d.localName.addr ≠ T0 := by
    subst hs0
    simp only [AddNewBundle, Function.update_same]
    omega
  obtain ⟨a1, a2, a3⟩ := cycleIn_serves h1 d T0 X aX s0 w1 hserve1 hkind hreg0 hst0
  obtain ⟨b1, b2, b3⟩ := cycleIn_serves h2 d T1 Y aY (cycleIn h1 w1 s0) w2 hserve2 hkind a3
    (by rw [a2]; omega)
  generalize cycleIn h2 w2 (cycleIn h1 w1 s0) = s2 at b1 b2 b3 ⊢
  obtain ⟨ft, hft, htok⟩ := hstill (beginWatch { s2 with world := w3 })
  have hbody : watchBody h3 (beginWatch { s2 with world := w3 }) d
      = (statFile h3 d (beginWatch { s2 with world := w3 })).2 :=
    watchBody_unchanged h3 d _ _ ft (Prod.ext hft rfl) (by rw [htok]; exact b2)
  have heng := (statFile_calls h3 d (beginWatch { s2 with world := w3 })).1
  have hsw : cycleIn h3 w3 s2 = (statFile h3 d (beginWatch { s2 with world := w3 })).2 := by
    simp only [cycleIn, StartWatch, reach, b3, List.foldl_cons, List.foldl_nil]
    rw [hbody]
    exact notifyCompiled_idle h3 _ (by rw [heng]; rfl)
  refine ⟨a1, b1, ?_, ?_⟩
  · rw [hsw, GetCompiledVertexShader, heng]
    exact b1
  · obtain ⟨-, rest, htr, hrest⟩ := statFile_spec h3 d (beginWatch { s2 with world := w3 })
    have htr2 : (cycleIn h3 w3 s2).trace = s2.trace ++ .FindFirstFileA d.hlslPath :: rest := by
      rw [hsw, htr]; rfl
    rw [callsSince_eq htr2, List.countP_cons_of_neg _ _ (by simp [Call.isCallback]),
      List.countP_eq_zero]
    intro c hc
    simp [(hrest c hc).2]

/-- C6, amended, on a run: the vertex file of the demo served with timestamp `7`, then
edited and served with timestamp `8`, then left alone. -/
theorem C6_edit_scenario_witness :
    GetCompiledVertexShader (cycleIn goodScript.host 0 vertexOnly).eng = some 1011 ∧
    GetCompiledVertexShader
      (cycleIn editedScript.host 0 (cycleIn goodScript.host 0 vertexOnly)).eng = some 1015 :=
  have key := C6_edit_scenario goodScript.host editedScript.host editedScript.host
    demoVertex (some 1) 7 8 [1, 1, 1] [5] 1011 1015 0 0 0 [] (by decide) (by decide) rfl
    ⟨fun s => ⟨⟨7, 0⟩, by simp [statFile, Script.host, goodScript], by decide⟩,
      fun s => by
        simp [ReadFile, ReadFileLoop, maxAttempts, Script.host, goodScript, demoOpen,
          demoVertex, St.call, fillBuffer],
      11, fun w => rfl, fun w => rfl⟩
    ⟨fun s => ⟨⟨8, 0⟩, by simp [statFile, Script.host, editedScript, goodScript],
        by decide⟩,
      fun s => by
        simp [ReadFile, ReadFileLoop, maxAttempts, Script.host, editedScript, goodScript,
          demoOpen, demoVertex, St.call, fillBuffer],
      15, fun w => rfl, fun w => rfl⟩
    (fun s => ⟨⟨8, 0⟩, by simp [statFile, Script.host, editedScript, goodScript], by decide⟩)
  ⟨key.1, key.2.1⟩

/-! ## C7: two kinds compiled in one cycle -/

/-- C7. Let the registry hold two descriptors of different kinds (one vertex, one pixel,
in either order) and let both be compiled successfully in one watch cycle of an engine
with the callback `fn`. Then the cycle invokes the callback exactly once; the invocation
is the last call of the cycle, after the stat calls of both descriptors, and it observes
the final values of the getters; the event list holds the two kinds, in registration
order; and each of the two slots holds a shader object that the device created in this
cycle. -/
theorem C7_two_kinds_one_callback (h : Host W) (s : St W) (d1 d2 : ShaderInformation)
    (fn : Nat)
    (hreg : s.eng.mShadersInformation = [d1, d2])
    (hkinds : d1.localShaderType ≠ d2.localShaderType)
    (hcb : s.eng.mCustomCallbackWhenShadersIsCompiled = some fn)
    (hc1 : compiledAt h (reach h s []) d1 = true)
    (hc2 : compiledAt h (reach h s [d1]) d2 = true) :
    (callsSince s (StartWatch h s)).countP Call.isCallback = 1 ∧
    (∃ seg, callsSince s (StartWatch h s)
        = seg ++ [.Callback fn (observe (StartWatch h s).eng)] ∧
      seg.filter Call.isStat
        = [.FindFirstFileA d1.hlslPath, .FindFirstFileA d2.hlslPath]) ∧
    GetCompiledShadersType (StartWatch h s).eng
      = [⟨d1.localShaderType⟩, ⟨d2.localShaderType⟩] ∧
    ∃ a1 a2,
      (∃ c ∈ callsSince s (StartWatch h s), c.creates d1.localShaderType a1 = true) ∧
      (∃ c ∈ callsSince s (StartWatch h s), c.creates d2.localShaderType a2 = true) ∧
      compiledShader (StartWatch h s).eng d1.localShaderType = some a1 ∧
      compiledShader (StartWatch h s).eng d2.localShaderType = some a2 := by
  have hc1' : compiledAt h (beginWatch s) d1 = true := hc1
  have hc2' : compiledAt h (watchBody h (beginWatch s) d1) d2 = true := hc2
  obtain ⟨r1, r2, r3, seg, r4, r5, r6⟩ := reach_summary h s
  have hcyc : compiledInCycle h s = [d1, d2] := by
    simp [compiledInCycle, compiledFrom, hreg, hc1', hc2']
  rw [hcb] at r1
  rw [hcyc] at r2 r3
  have hsw := notifyCompiled_fire h (reach h s s.eng.mShadersInformation) fn r1 r2
  have heng : (StartWatch h s).eng = (reach h s s.eng.mShadersInformation).eng :=
    notifyCompiled_eng h _
  have htr : (StartWatch h s).trace = s.trace ++ (seg ++
      [.Callback fn (observe (StartWatch h s).eng)]) := by
    rw [heng]
    unfold StartWatch
    rw [hsw]
    simp [St.call, r4]
  refine ⟨?_, ⟨seg, callsSince_eq htr, by rw [r5, hreg]; rfl⟩, ?_, ?_⟩
  · rw [callsSince_eq htr, List.countP_append, r6]
    simp [Call.isCallback]
  · rw [GetCompiledShadersType, heng, r3]
    rfl
  · obtain ⟨-, -, -, ⟨t1, e1, -⟩, -, -, -, b8⟩ := watchBody_spec h (beginWatch s) d1
    obtain ⟨-, -, -, ⟨t2, e2, -⟩, c5, -, -, c8⟩ :=
      watchBody_spec h (watchBody h (beginWatch s) d1) d2
    obtain ⟨a1, ha1, k1, hk1, hk1'⟩ := b8 hc1'
    obtain ⟨a2, ha2, k2, hk2, hk2'⟩ := c8 hc2'
    have hR : reach h s s.eng.mShadersInformation
        = watchBody h (watchBody h (beginWatch s) d1) d2 := by
      simp [reach, hreg]
    have hfin : ∃ sg, (StartWatch h s).trace
        = (watchBody h (watchBody h (beginWatch s) d1) d2).trace ++ sg := by
      rw [← hR]
      exact notifyCompiled_trace h _
    refine ⟨a1, a2, ⟨k1, ?_, hk1'⟩, ⟨k2, ?_, hk2'⟩, ?_, ?_⟩
    · obtain ⟨sg, hsg⟩ := hfin
      exact callsSince_mid (s := s) ⟨[], by simp [beginWatch]⟩ ⟨_, e1⟩
        ⟨.FindFirstFileA d2.hlslPath :: t2 ++ sg, by rw [hsg, e2]; simp⟩ hk1
    · exact callsSince_mid (s := s) ⟨.FindFirstFileA d1.hlslPath :: t1, by
        rw [e1]; simp [beginWatch]⟩ ⟨_, e2⟩ hfin hk2
    · rw [heng, hR, c5 _ hkinds]
      exact ha1
    · rw [heng, hR]
      exact ha2

/-- C7 on a run: the first cycle of the demo engine, which compiles the pixel and the
vertex shader. -/
theorem C7_two_kinds_one_callback_witness :
    (callsSince demoEngine (StartWatch goodScript.host demoEngine)).countP Call.isCallback
      = 1 ∧
    GetCompiledShadersType (StartWatch goodScript.host demoEngine).eng
      = [⟨.PixelShader⟩, ⟨.VertexShader⟩] :=
  have key := C7_two_kinds_one_callback goodScript.host demoEngine demoPixel demoVertex 1
    (by decide) (by decide) (by decide) (by decide) (by decide)
  ⟨key.1, key.2.2.1⟩

/-! ## C8: storing an artifact replaces and releases the previous one -/

/-- C8. For the vertex slot and for the pixel slot alike: let a successful
`CreateVertexShader` (`CreatePixelShader`) have stored the shader object `A`, and let a
second creation for the same kind succeed, the device answering `B`. Then the second call
returns `true`, the getter of that kind returns `B`, the calls it made are exactly the
release of `A` followed by the creation of `B` (so `A` is released once, before `B` is
stored), and the slot of the other kind is untouched. A slot is a single pointer, so it
never holds more than one artifact. -/
theorem C8_store_replaces_and_releases (h : Host W) (s s1 : St W)
    (info1 info2 : ShaderInformation) (blob1 blob2 A B : Nat) (w2 : W) :
    (CreateVertexShader h info1 blob1 s = (true, s1) →
      GetCompiledVertexShader s1.eng = some A →
      h.CreateVertexShader info2.renderDevices.mRenderDevice blob2 (h.Release A s1.world)
        = (some B, w2) →
      (CreateVertexShader h info2 blob2 s1).1 = true ∧
      GetCompiledVertexShader (CreateVertexShader h info2 blob2 s1).2.eng = some B ∧
      callsSince s1 (CreateVertexShader h info2 blob2 s1).2
        = [.Release A, .CreateVertexShader info2.renderDevices.mRenderDevice blob2 (some B)] ∧
      (callsSince s1 (CreateVertexShader h info2 blob2 s1).2).count (.Release A) = 1 ∧
      GetCompiledPixelShader (CreateVertexShader h info2 blob2 s1).2.eng
        = GetCompiledPixelShader s1.eng) ∧
    (CreatePixelShader h info1 blob1 s = (true, s1) →
      GetCompiledPixelShader s1.eng = some A →
      h.CreatePixelShader info2.renderDevices.mRenderDevice blob2 (h.Release A s1.world)
        = (some B, w2) →
      (CreatePixelShader h info2 blob2 s1).1 = true ∧
      GetCompiledPixelShader (CreatePixelShader h info2 blob2 s1).2.eng = some B ∧
      callsSince s1 (CreatePixelShader h info2 blob2 s1).2
        = [.Release A, .CreatePixelShader info2.renderDevices.mRenderDevice blob2 (some B)] ∧
      (callsSince s1 (CreatePixelShader h info2 blob2 s1).2).count (.Release A) = 1 ∧
      GetCompiledVertexShader (CreatePixelShader h info2 blob2 s1).2.eng
        = GetCompiledVertexShader s1.eng) := by
  constructor
  · intro _ hA hB
    simp only [GetCompiledVertexShader] at hA
    simp [CreateVertexShader, hA, St.call, hB, callsSince, GetCompiledVertexShader,
      GetCompiledPixelShader]
  · intro _ hA hB
    simp only [GetCompiledPixelShader] at hA
    simp [CreatePixelShader, hA, St.call, hB, callsSince, GetCompiledVertexShader,
      GetCompiledPixelShader]

/-- C8 on a run: two vertex shaders, then two pixel shaders, stored one after the other
from the blobs `11` and `12`. -/
theorem C8_store_replaces_and_releases_witness :
    GetCompiledVertexShader (CreateVertexShader goodScript.host demoVertex 12
      (CreateVertexShader goodScript.host demoVertex 11 vertexOnly).2).2.eng = some 1012 ∧
    callsSince (CreatePixelShader goodScript.host demoPixel 11 demoEngine).2
        (CreatePixelShader goodScript.host demoPixel 12
          (CreatePixelShader goodScript.host demoPixel 11 demoEngine).2).2
      = [.Release 1011, .CreatePixelShader 1 12 (some 1012)] :=
  ⟨((C8_store_replaces_and_releases goodScript.host vertexOnly
      (CreateVertexShader goodScript.host demoVertex 11 vertexOnly).2
      demoVertex demoVertex 11 12 1011 1012 0).1 rfl rfl rfl).2.1,
    ((C8_store_replaces_and_releases goodScript.host demoEngine
      (CreatePixelShader goodScript.host demoPixel 11 demoEngine).2
      demoPixel demoPixel 11 12 1011 1012 0).2 rfl rfl rfl).2.2.1⟩

/-! ## C9: the bounded retry of `ReadFile` -/

theorem ReadFileLoop_succeeds (h : Host W) (f : String) (size : Nat) (data : List Nat)
    (w2 w3 : W) (hsize : size ≠ 0) :
    ∀ (k n a : Nat) (s : St W) (ws w1s : Nat → W) (hf : Nat → Nat), k < n →
      ws 0 = s.world →
      (∀ i, i ≤ k → h.CreateFileA f (ws i) = (some (hf i), w1s i)) →
      (∀ i, i < k → h.GetFileSizeEx (hf i) (w1s i) = (some 0, ws (i + 1))) →
      h.GetFileSizeEx (hf k) (w1s k) = (some size, w2) →
      h.ReadFile (hf k) (size % 2 ^ 32) w2 = (some data, w3) →
      (ReadFileLoop h f n a s).1 = some (fillBuffer size data) ∧
      ∃ seg, (ReadFileLoop h f n a s).2.trace = s.trace ++ seg ∧
        seg.countP Call.isOpen = k + 1 := by
  intro k
  induction k with
  | zero =>
    intro n a s ws w1s hf hn h0 hopen _ hlast hread
    obtain ⟨n, rfl⟩ : ∃ m, n = m + 1 := ⟨n - 1, by omega⟩
    have ho := hopen 0 (Nat.le_refl 0)
    rw [h0] at ho
    simp only [ReadFileLoop, ho, St.call, hlast, hsize, if_false, hread]
    exact ⟨trivial, [.CreateFileA f, .GetFileSizeEx (hf 0), .ReadFile (hf 0) (size % 2 ^ 32),
      .CloseHandle (hf 0)], by simp, by simp [Call.isOpen]⟩
  | succ k ih =>
    intro n a s ws w1s hf hn h0 hopen hzero hlast hread
    obtain ⟨n, rfl⟩ : ∃ m, n = m + 1 := ⟨n - 1, by omega⟩
    have ho := hopen 0 (Nat.zero_le _)
    rw [h0] at ho
    have hz := hzero 0 (Nat.succ_pos k)
    simp only [ReadFileLoop, ho, St.call, hz, if_true]
    obtain ⟨r1, seg, r2, r3⟩ := ih n (a + 1)
      ⟨s.eng, ws (0 + 1), s.trace ++ [.CreateFileA f] ++ [.GetFileSizeEx (hf 0)]⟩
      (fun i => ws (i + 1)) (fun i => w1s (i + 1)) (fun i => hf (i + 1)) (by omega) rfl
      (fun i hi => hopen (i + 1) (by omega)) (fun i hi => hzero (i + 1) (by omega))
      hlast hread
    refine ⟨r1, [.CreateFileA f, .GetFileSizeEx (hf 0)] ++ seg, ?_, ?_⟩
    · rw [r2]; simp
    · rw [List.countP_append, r3]
      simp [Call.isOpen]
      omega

theorem ReadFileLoop_exhausts (h : Host W) (f : String) :
    ∀ (n a : Nat) (s : St W) (ws w1s : Nat → W) (hf : Nat → Nat),
      ws 0 = s.world →
      (∀ i, i < n → h.CreateFileA f (ws i) = (some (hf i), w1s i)) →
      (∀ i, i < n → h.GetFileSizeEx (hf i) (w1s i) = (some 0, ws (i + 1))) →
      (ReadFileLoop h f n a s).1 = none ∧
      ∃ seg, (ReadFileLoop h f n a s).2.trace
          = s.trace ++ seg ++ [.printfReadFailed f (a + n)] ∧
        seg.countP Call.isOpen = n := by
  intro n
  induction n with
  | zero =>
    intro a s ws w1s hf _ _ _
    exact ⟨rfl, [], by simp [ReadFileLoop, St.call], rfl⟩
  | succ n ih =>
    intro a s ws w1s hf h0 hopen hzero
    have ho := hopen 0 (Nat.succ_pos n)
    rw [h0] at ho
    have hz := hzero 0 (Nat.succ_pos n)
    simp only [ReadFileLoop, ho, St.call, hz, if_true]
    obtain ⟨r1, seg, r2, r3⟩ := ih (a + 1)
      ⟨s.eng, ws (0 + 1), s.trace ++ [.CreateFileA f] ++ [.GetFileSizeEx (hf 0)]⟩
      (fun i => ws (i + 1)) (fun i => w1s (i + 1)) (fun i => hf (i + 1)) rfl
      (fun i hi => hopen (i + 1) (by omega)) (fun i hi => hzero (i + 1) (by omega))
    refine ⟨r1, [.CreateFileA f, .GetFileSizeEx (hf 0)] ++ seg, ?_, ?_⟩
    · rw [r2]
      have : a + 1 + n = a + (n + 1) := by omega
      simp [this]
    · rw [List.countP_append, r3]
      simp [Call.isOpen]
      omega

theorem fillBuffer_full (size : Nat) (data : List Nat) (hlen : data.length = size)
    (hsmall : size < 2 ^ 32) : fillBuffer size data = data := by
  subst hlen
  have hmod : data.length % 2 ^ 32 = data.length := Nat.mod_eq_of_lt hsmall
  simp only [fillBuffer, hmod, List.take_length, Nat.sub_self, List.replicate_zero,
    List.append_nil]

/-- C9. `ReadFile` makes at most `5` attempts, an attempt being one `CreateFileA`. Let
every open and size query succeed, the worlds they pass through being `ws`, `w1s`.
If the size is reported as zero on the first `k < 5` attempts and as `size ≠ 0` on the
next, where the read then stores `data`, then `ReadFile` returns `true` after `k + 1`
attempts, with the buffer of `size` bytes holding `data` (which is `data` itself when the
read filled the buffer). If the size is reported as zero on all `5` attempts, then
`ReadFile` returns `false` after exactly `5` attempts, its last act being the message
that reports `5` attempts. -/
theorem C9_read_retries_up_to_five (h : Host W) (filename : String) (s : St W)
    (ws w1s : Nat → W) (hf : Nat → Nat) (h0 : ws 0 = s.world) :
    (∀ (k size : Nat) (data : List Nat) (w2 w3 : W), k < 5 →
      (∀ i, i ≤ k → h.CreateFileA filename (ws i) = (some (hf i), w1s i)) →
      (∀ i, i < k → h.GetFileSizeEx (hf i) (w1s i) = (some 0, ws (i + 1))) →
      h.GetFileSizeEx (hf k) (w1s k) = (some size, w2) → size ≠ 0 →
      h.ReadFile (hf k) (size % 2 ^ 32) w2 = (some data, w3) →
      (ReadFile h filename s).1 = some (fillBuffer size data) ∧
      (data.length = size → size < 2 ^ 32 → (ReadFile h filename s).1 = some data) ∧
      (callsSince s (ReadFile h filename s).2).countP Call.isOpen = k + 1) ∧
    ((∀ i, i < 5 → h.CreateFileA filename (ws i) = (some (hf i), w1s i)) →
      (∀ i, i < 5 → h.GetFileSizeEx (hf i) (w1s i) = (some 0, ws (i + 1))) →
      (ReadFile h filename s).1 = none ∧
      (callsSince s (ReadFile h filename s).2).countP Call.isOpen = 5 ∧
      (ReadFile h filename s).2.trace.getLast? = some (.printfReadFailed filename 5)) := by
  constructor
  · intro k size data w2 w3 hk hopen hzero hlast hsize hread
    obtain ⟨r1, seg, r2, r3⟩ := ReadFileLoop_succeeds h filename size data w2 w3 hsize k
      maxAttempts 0 s ws w1s hf hk h0 hopen hzero hlast hread
    refine ⟨r1, fun hlen hsmall => ?_, ?_⟩
    · rw [← fillBuffer_full size data hlen hsmall]; exact r1
    · rw [callsSince_eq (show (ReadFile h filename s).2.trace = s.trace ++ seg from r2), r3]
  · intro hopen hzero
    obtain ⟨r1, seg, r2, r3⟩ := ReadFileLoop_exhausts h filename maxAttempts 0 s ws w1s hf
      h0 hopen hzero
    have r2' : (ReadFile h filename s).2.trace
        = s.trace ++ (seg ++ [.printfReadFailed filename 5]) := by
      rw [List.append_assoc] at r2
      simpa [maxAttempts] using r2
    refine ⟨r1, ?_, ?_⟩
    · rw [callsSince_eq r2', List.countP_append, r3]
      simp [Call.isOpen, maxAttempts]
    · rw [r2', ← List.append_assoc, List.getLast?_append]
      simp

/-- C9 on two runs: the size reported as zero four times and then as `3`, and the size
reported as zero five times. -/
theorem C9_read_retries_up_to_five_witness :
    (ReadFile retryScript.host "VertexShader.hlsl" vertexOnly).1 = some [1, 1, 1] ∧
    (ReadFile emptyScript.host "VertexShader.hlsl" vertexOnly).1 = none :=
  ⟨((C9_read_retries_up_to_five retryScript.host "VertexShader.hlsl" vertexOnly
      (fun i => i) (fun i => i) (fun _ => 1) rfl).1 4 3 [1, 1, 1] 5 5 (by decide)
      (fun _ _ => rfl) (fun i hi => by simp [Script.host, retryScript, goodScript, hi])
      rfl (by decide) rfl).2.1 rfl (by decide),
    ((C9_read_retries_up_to_five emptyScript.host "VertexShader.hlsl" vertexOnly
      (fun i => i) (fun i => i) (fun _ => 1) rfl).2 (fun _ _ => rfl)
      (fun i hi => by simp [Script.host, emptyScript, goodScript, hi])).1⟩

theorem statFile_fst (h : Host W) (d : ShaderInformation) (s : St W) :
    (statFile h d s).1 = (h.FindFirstFileA d.hlslPath s.world).1.map Prod.snd := by
  unfold statFile
  rcases hf : h.FindFirstFileA d.hlslPath s.world with ⟨_ | ⟨handle, ft⟩, w1⟩ <;> rfl

theorem statFile_missing (h : Host W) (d : ShaderInformation) (s : St W)
    (hstat : (h.FindFirstFileA d.hlslPath s.world).1 = none) :
    (statFile h d s).2.trace = s.trace ++ [.FindFirstFileA d.hlslPath] := by
  unfold statFile
  rcases hf : h.FindFirstFileA d.hlslPath s.world with ⟨_ | ⟨handle, ft⟩, w1⟩
  · rfl
  · rw [hf] at hstat
    exact absurd hstat (by simp)

theorem notifyCompiled_calls (h : Host W) (s : St W) :
    ∃ seg, (notifyCompiled h s).trace = s.trace ++ seg ∧
      seg.filter Call.isStat = [] ∧
      ∀ c ∈ seg, c.isRead = false ∧ c.isCompile = false := by
  unfold notifyCompiled
  split
  · split
    · exact ⟨_, rfl, by simp [Call.isStat], by simp [Call.isRead, Call.isCompile]⟩
    · exact ⟨[], by simp, by simp, by simp⟩
  · exact ⟨[], by simp, by simp, by simp⟩

/-! ## C11: lookup by name -/

/-- C11. For every registry and every name `n`, `GetShaderInformationByLocalName(n)`
returns a descriptor exactly when that descriptor is registered with a name equal to `n`
as a string and no descriptor registered before it has such a name (so it is the first
one in registration order); it returns null if and only if no registered descriptor has
that name. Right after `AddNewBundle` registered a descriptor, the lookup of its name
finds a descriptor of that name, and finds that very descriptor when no earlier one has
the name. -/
theorem C11_lookup_by_name (e : HotReloadableShades) (n : String)
    (information : ShaderInformation) :
    (∀ found, GetShaderInformationByLocalName e n = some found ↔
      found.localName.text = n ∧
      ∃ done rest, e.mShadersInformation = done ++ found :: rest ∧
        ∀ x ∈ done, x.localName.text ≠ n) ∧
    (GetShaderInformationByLocalName e n = none ↔
      ∀ x ∈ e.mShadersInformation, x.localName.text ≠ n) ∧
    (∃ found, GetShaderInformationByLocalName (AddNewBundle e information)
        information.localName.text = some found ∧
      found.localName.text = information.localName.text) ∧
    ((∀ x ∈ e.mShadersInformation, x.localName.text ≠ information.localName.text) →
      GetShaderInformationByLocalName (AddNewBundle e information)
        information.localName.text = some information) := by
  have hfound : ∀ (e : HotReloadableShades) (n : String) (found : ShaderInformation),
      GetShaderInformationByLocalName e n = some found ↔
      found.localName.text = n ∧
      ∃ done rest, e.mShadersInformation = done ++ found :: rest ∧
        ∀ x ∈ done, x.localName.text ≠ n := by
    intro e n found
    simp [GetShaderInformationByLocalName, List.find?_eq_some]
  have hlast : (∀ x ∈ e.mShadersInformation, x.localName.text ≠ information.localName.text) →
      GetShaderInformationByLocalName (AddNewBundle e information)
        information.localName.text = some information := by
    intro hno
    exact (hfound _ _ _).2 ⟨rfl, e.mShadersInformation, [], rfl, hno⟩
  refine ⟨hfound e n, by simp [GetShaderInformationByLocalName], ?_, hlast⟩
  by_cases hno : ∀ x ∈ e.mShadersInformation, x.localName.text ≠ information.localName.text
  · exact ⟨information, hlast hno, rfl⟩
  · rcases hg : GetShaderInformationByLocalName (AddNewBundle e information)
      information.localName.text with _ | found
    · have : ∀ x ∈ (AddNewBundle e information).mShadersInformation,
          x.localName.text ≠ information.localName.text := by
        simpa [GetShaderInformationByLocalName] using hg
      exact absurd rfl (this information (by simp [AddNewBundle]))
    · exact ⟨found, rfl, ((hfound _ _ _).1 hg).1⟩

/-- C11 on a run: the two descriptors of the demo are found by their names, and a name
that was never registered is not. -/
theorem C11_lookup_by_name_witness :
    GetShaderInformationByLocalName demoEngine.eng "BasicVertexShader" = some demoVertex ∧
    GetShaderInformationByLocalName demoEngine.eng "BasicPixelShader" = some demoPixel ∧
    GetShaderInformationByLocalName demoEngine.eng "Missing" = none :=
  ⟨(C11_lookup_by_name
      (AddNewBundle (ActionIfCompiled HotReloadableShades.new (some 1)) demoPixel)
      "BasicVertexShader" demoVertex).2.2.2 (by decide),
    by decide, by decide⟩

/-! ## C12: a file that cannot be statted -/

/-- C12. Let a watch cycle meet the registered descriptor `d` with a file for which
`FindFirstFileA` fails. Then processing `d` leaves the whole engine as it was (stored
timestamps, both artifact slots, event list, flag), the only call made for `d` is that
`FindFirstFileA` (no read, no compile), `d` is not compiled, and the cycle goes on: after
`d` it stats every remaining descriptor, in registration order, and ends with the
callback step. -/
theorem C12_stat_failure_is_skipped (h : Host W) (s : St W)
    (done rest : List ShaderInformation) (d : ShaderInformation)
    (hreg : s.eng.mShadersInformation = done ++ d :: rest)
    (hstat : (h.FindFirstFileA d.hlslPath (reach h s done).world).1 = none) :
    (watchBody h (reach h s done) d).eng = (reach h s done).eng ∧
    callsSince (reach h s done) (watchBody h (reach h s done) d)
      = [.FindFirstFileA d.hlslPath] ∧
    compiledAt h (reach h s done) d = false ∧
    StartWatch h s
      = notifyCompiled h (rest.foldl (watchBody h) (watchBody h (reach h s done) d)) ∧
    (callsSince (watchBody h (reach h s done) d) (StartWatch h s)).filter Call.isStat
      = rest.map (fun x => Call.FindFirstFileA x.hlslPath) := by
  have hsplit := StartWatch_split h s done rest d hreg
  generalize reach h s done = m at hstat hsplit ⊢
  have hnone : (statFile h d m).1 = none := by rw [statFile_fst, hstat]; rfl
  have hbody := watchBody_notfound h d m hnone
  refine ⟨by rw [hbody]; exact (statFile_calls h d m).1, ?_, ?_, hsplit, ?_⟩
  · rw [hbody, callsSince_eq (statFile_missing h d m hstat)]
  · unfold compiledAt
    rcases hS : statFile h d m with ⟨o, s1⟩
    rw [hS] at hnone
    simp only [] at hnone
    subst hnone
    rfl
  · obtain ⟨seg, a1, a2, -⟩ := foldl_watchBody_trace h rest (watchBody h m d)
    obtain ⟨sg, b1, b2, -⟩ := notifyCompiled_calls h (rest.foldl (watchBody h) (watchBody h m d))
    have htr : (StartWatch h s).trace = (watchBody h m d).trace ++ (seg ++ sg) := by
      rw [hsplit, b1, a1, List.append_assoc]
    rw [callsSince_eq htr, List.filter_append, a2, b2, List.append_nil]

/-- C12 on a run: the first cycle of the demo engine when the pixel source is missing;
the pixel descriptor costs one call, and the vertex shader after it is compiled. -/
theorem C12_stat_failure_is_skipped_witness :
    callsSince (reach missingScript.host demoEngine [])
        (watchBody missingScript.host (reach missingScript.host demoEngine []) demoPixel)
      = [.FindFirstFileA "PixelShader.hlsl"] ∧
    GetCompiledShadersType (StartWatch missingScript.host demoEngine).eng
      = [⟨.VertexShader⟩] :=
  ⟨(C12_stat_failure_is_skipped missingScript.host demoEngine [] [demoVertex] demoPixel
      (by decide) (by decide)).2.1,
    by decide⟩

/-! ## C13: the event list of a cycle -/

theorem compiledFrom_sublist (h : Host W) (ds : List ShaderInformation) :
    ∀ s : St W, (compiledFrom h s ds).Sublist ds := by
  induction ds with
  | nil => intro s; exact List.Sublist.slnil
  | cons d ds ih =>
    intro s
    simp only [compiledFrom]
    by_cases hc : compiledAt h s d = true
    · simpa [hc] using (ih (watchBody h s d)).cons₂ d
    · simpa [hc] using (ih (watchBody h s d)).cons d

/-- C13. For every engine state and every host, the list that `GetCompiledShadersType()`
returns after a watch cycle is the list of the kinds of the descriptors compiled
successfully in that cycle, one event for each, in registration order (these descriptors
form a sublist of the registry, a descriptor being among them exactly when the loop finds
its file changed and `CompileFile` returns `true`). So the list is no longer than the
registry, and it holds nothing from an earlier cycle: the cycle ends in the same state
whatever event list and flag it started with. -/
theorem C13_events_of_the_cycle (h : Host W) (s : St W) :
    GetCompiledShadersType (StartWatch h s).eng
      = (compiledInCycle h s).map (fun d => (⟨d.localShaderType⟩ : CompiledQueue)) ∧
    (compiledInCycle h s).Sublist s.eng.mShadersInformation ∧
    (∀ d, d ∈ compiledInCycle h s ↔
      ∃ done rest, s.eng.mShadersInformation = done ++ d :: rest ∧
        compiledAt h (reach h s done) d = true) ∧
    (GetCompiledShadersType (StartWatch h s).eng).length ≤ s.eng.mShadersInformation.length ∧
    ∀ (old : List CompiledQueue) (flag : Bool),
      StartWatch h { s with eng := { s.eng with mCompiledShaders := old, bIsCompiled := flag } }
        = StartWatch h s := by
  obtain ⟨-, -, r3, -⟩ := reach_summary h s
  have hev : GetCompiledShadersType (StartWatch h s).eng
      = (compiledInCycle h s).map (fun d => (⟨d.localShaderType⟩ : CompiledQueue)) := by
    unfold StartWatch
    rw [GetCompiledShadersType, notifyCompiled_eng, r3]
  have hsub : (compiledInCycle h s).Sublist s.eng.mShadersInformation :=
    compiledFrom_sublist h s.eng.mShadersInformation (beginWatch s)
  refine ⟨hev, hsub, fun d => mem_compiledFrom h d s.eng.mShadersInformation (beginWatch s),
    ?_, fun old flag => rfl⟩
  rw [hev, List.length_map]
  exact hsub.length_le

/-! ## C14: a failed creation of the shader object -/

/-- C14. For the vertex kind and for the pixel kind alike: if the device fails to create
the shader object, the creation method returns `false`, the slot of that kind is empty
afterwards, the calls made are the release of the previous artifact (when there was one),
the failed creation and the release of the blob, in this order, and the event list and
the flag are as before. So when a watch cycle meets a descriptor `d` whose file is
changed, read and compiled successfully, and the creation method of its kind fails, then
after processing `d` the getter of that kind returns null, no event is appended and the
flag is not changed by `d`, the other slot is untouched, and the stored timestamp of `d`
is the file's. Unlike a compiler failure, this does not keep the previous artifact. -/
theorem C14_creation_failure_empties_slot (h : Host W) (s t s1 s2 : St W)
    (done : List ShaderInformation) (d info : ShaderInformation) (ft : FILETIME)
    (buf : List Nat) (blob shader : Nat) (w3 : W) :
    ((h.CreateVertexShader info.renderDevices.mRenderDevice shader
        (t.eng.mCompiledVertexShader.elim t.world (fun old => h.Release old t.world))).1
        = none →
      (CreateVertexShader h info shader t).1 = false ∧
      GetCompiledVertexShader (CreateVertexShader h info shader t).2.eng = none ∧
      callsSince t (CreateVertexShader h info shader t).2
        = t.eng.mCompiledVertexShader.toList.map Call.Release ++
          [.CreateVertexShader info.renderDevices.mRenderDevice shader none,
            .Release shader] ∧
      (CreateVertexShader h info shader t).2.eng.mCompiledShaders = t.eng.mCompiledShaders ∧
      (CreateVertexShader h info shader t).2.eng.bIsCompiled = t.eng.bIsCompiled) ∧
    ((h.CreatePixelShader info.renderDevices.mRenderDevice shader
        (t.eng.mCompiledPixelShader.elim t.world (fun old => h.Release old t.world))).1
        = none →
      (CreatePixelShader h info shader t).1 = false ∧
      GetCompiledPixelShader (CreatePixelShader h info shader t).2.eng = none ∧
      callsSince t (CreatePixelShader h info shader t).2
        = t.eng.mCompiledPixelShader.toList.map Call.Release ++
          [.CreatePixelShader info.renderDevices.mRenderDevice shader none,
            .Release shader] ∧
      (CreatePixelShader h info shader t).2.eng.mCompiledShaders = t.eng.mCompiledShaders ∧
      (CreatePixelShader h info shader t).2.eng.bIsCompiled = t.eng.bIsCompiled) ∧
    (statFile h d (reach h s done) = (some ft, s1) →
      (reach h s done).eng.mTimeChanged d.localName.addr ≠ FileTimeToUInt64 ft →
      ReadFile h d.hlslPath s1 = (some buf, s2) →
      h.D3DCompile buf d.entryPoint d.shaderVersion s2.world = (.ok blob, w3) →
      (createShader h d blob
        (s2.call (.D3DCompile buf d.entryPoint d.shaderVersion) w3)).1 = false →
      compiledShader (watchBody h (reach h s done) d).eng d.localShaderType = none ∧
      (∀ k, k ≠ d.localShaderType →
        compiledShader (watchBody h (reach h s done) d).eng k
          = compiledShader (reach h s done).eng k) ∧
      (watchBody h (reach h s done) d).eng.mCompiledShaders
        = (reach h s done).eng.mCompiledShaders ∧
      (watchBody h (reach h s done) d).eng.bIsCompiled = (reach h s done).eng.bIsCompiled ∧
      compiledAt h (reach h s done) d = false ∧
      (watchBody h (reach h s done) d).eng.mTimeChanged d.localName.addr
        = FileTimeToUInt64 ft) := by
  refine ⟨?_, ?_, ?_⟩
  · intro hdev
    unfold CreateVertexShader
    rcases hs : t.eng.mCompiledVertexShader with _ | old
    · rw [hs] at hdev
      simp only [Option.elim] at hdev
      rcases hd : h.CreateVertexShader info.renderDevices.mRenderDevice shader t.world
        with ⟨o, w2⟩
      rw [hd] at hdev
      simp only [] at hdev
      subst hdev
      simp [St.call, callsSince, GetCompiledVertexShader, hs, hd]
    · rw [hs] at hdev
      simp only [Option.elim] at hdev
      rcases hd : h.CreateVertexShader info.renderDevices.mRenderDevice shader
        (h.Release old t.world) with ⟨o, w2⟩
      rw [hd] at hdev
      simp only [] at hdev
      subst hdev
      simp [St.call, callsSince, GetCompiledVertexShader, hd]
  · intro hdev
    unfold CreatePixelShader
    rcases hs : t.eng.mCompiledPixelShader with _ | old
    · rw [hs] at hdev
      simp only [Option.elim] at hdev
      rcases hd : h.CreatePixelShader info.renderDevices.mRenderDevice shader t.world
        with ⟨o, w2⟩
      rw [hd] at hdev
      simp only [] at hdev
      subst hdev
      simp [St.call, callsSince, GetCompiledPixelShader, hs, hd]
    · rw [hs] at hdev
      simp only [Option.elim] at hdev
      rcases hd : h.CreatePixelShader info.renderDevices.mRenderDevice shader
        (h.Release old t.world) with ⟨o, w2⟩
      rw [hd] at hdev
      simp only [] at hdev
      subst hdev
      simp [St.call, callsSince, GetCompiledPixelShader, hd]
  · intro hstat hne hread hcomp hcreate
    have hs1 : s1.eng = (reach h s done).eng := statFile_eng_eq h d _ s1 _ hstat
    have hs2 : s2.eng = s1.eng := by
      have := ReadFile_eng h d.hlslPath s1
      rwa [hread] at this
    have hCF : CompileFile h d s1
        = createShader h d blob (s2.call (.D3DCompile buf d.entryPoint d.shaderVersion) w3) := by
      unfold CompileFile createShader
      rw [hread]
      simp only [hcomp]
    have hstamp := watchBody_stamp h d _ s1 ft hstat
    have hat : compiledAt h (reach h s done) d = false := by
      simp [compiledAt, hstat, hCF, hcreate]
    rw [watchBody_changed h d _ s1 ft hstat hne] at hstamp ⊢
    rw [hCF] at hstamp ⊢
    generalize hs3 : s2.call (.D3DCompile buf d.entryPoint d.shaderVersion) w3 = s3
      at hcreate hstamp ⊢
    have he3 : s3.eng = (reach h s done).eng := by
      rw [← hs3, ← hs1, ← hs2]; rfl
    unfold createShader at hcreate hstamp ⊢
    rcases hk : d.localShaderType
    · rw [hk] at hcreate hstamp
      simp only [] at hcreate hstamp ⊢
      obtain ⟨-, c2, -, c4⟩ := CreateVertexShader_spec h d blob s3
      obtain ⟨d1, d2, d3⟩ := c4 hcreate
      refine ⟨by simpa [compiledShader, GetCompiledVertexShader] using d1, ?_,
        by rw [d2, he3], by rw [d3, he3], hat, hstamp⟩
      intro k hkne
      cases k
      · exact absurd rfl hkne
      · simpa [compiledShader, GetCompiledPixelShader, he3] using c2
    · rw [hk] at hcreate hstamp
      simp only [] at hcreate hstamp ⊢
      obtain ⟨-, c2, -, c4⟩ := CreatePixelShader_spec h d blob s3
      obtain ⟨d1, d2, d3⟩ := c4 hcreate
      refine ⟨by simpa [compiledShader, GetCompiledPixelShader] using d1, ?_,
        by rw [d2, he3], by rw [d3, he3], hat, hstamp⟩
      intro k hkne
      cases k
      · simpa [compiledShader, GetCompiledVertexShader, he3] using c2
      · exact absurd rfl hkne

/-- C14 on a run: the vertex shader of the demo was compiled and stored (object `1011`);
the file is then edited and the device refuses the new shader. The old object is released
and the slot is left empty. -/
theorem C14_creation_failure_empties_slot_witness :
    GetCompiledVertexShader (StartWatch goodScript.host vertexOnly).eng = some 1011 ∧
    callsSince (StartWatch goodScript.host vertexOnly)
        (CreateVertexShader refusingScript.host demoVertex 15
          (StartWatch goodScript.host vertexOnly)).2
      = [.Release 1011, .CreateVertexShader 1 15 none, .Release 15] ∧
    compiledShader
        (watchBody refusingScript.host
          (reach refusingScript.host (StartWatch goodScript.host vertexOnly) [])
          demoVertex).eng .VertexShader = none :=
  ⟨by decide,
    ((C14_creation_failure_empties_slot refusingScript.host vertexOnly
      (StartWatch goodScript.host vertexOnly) vertexOnly vertexOnly [] demoVertex demoVertex
      ⟨0, 0⟩ [] 0 15 0).1 rfl).2.2.1,
    ((C14_creation_failure_empties_slot refusingScript.host
      (StartWatch goodScript.host vertexOnly) vertexOnly
      (statFile refusingScript.host demoVertex
        (reach refusingScript.host (StartWatch goodScript.host vertexOnly) [])).2
      (ReadFile refusingScript.host demoVertex.hlslPath
        (statFile refusingScript.host demoVertex
          (reach refusingScript.host (StartWatch goodScript.host vertexOnly) [])).2).2
      [] demoVertex demoVertex ⟨8, 0⟩ [5] 15 0
      (ReadFile refusingScript.host demoVertex.hlslPath
        (statFile refusingScript.host demoVertex
          (reach refusingScript.host (StartWatch goodScript.host vertexOnly) [])).2).2.world).2.2
      rfl (by decide) rfl rfl rfl).1⟩

/-! ## C15: a second cycle over unchanged files does nothing -/

theorem statFile_token (h : Host W) (tok : String → Option Nat)
    (hfix : ∀ (w : W) (path : String),
      (h.FindFirstFileA path w).1.map (fun found => FileTimeToUInt64 found.2) = tok path)
    (d : ShaderInformation) (s : St W) :
    (statFile h d s).1.map FileTimeToUInt64 = tok d.hlslPath := by
  rw [statFile_fst, ← hfix s.world d.hlslPath, Option.map_map]
  rfl

/-- Where every descriptor of `ds` whose file is found has the file's timestamp stored, the
loop over `ds` leaves the engine as it is and only stats. -/
theorem foldl_watchBody_idle (h : Host W) (tok : String → Option Nat)
    (hfix : ∀ (w : W) (path : String),
      (h.FindFirstFileA path w).1.map (fun found => FileTimeToUInt64 found.2) = tok path)
    (ds : List ShaderInformation) :
    ∀ m : St W,
      (∀ d ∈ ds, ∀ t, tok d.hlslPath = some t → m.eng.mTimeChanged d.localName.addr = t) →
      (ds.foldl (watchBody h) m).eng = m.eng ∧
      ∃ seg, (ds.foldl (watchBody h) m).trace = m.trace ++ seg ∧
        seg.filter Call.isStat = ds.map (fun d => Call.FindFirstFileA d.hlslPath) ∧
        ∀ c ∈ seg, c.isRead = false ∧ c.isCompile = false ∧ c.isCallback = false := by
  induction ds with
  | nil => intro m _; exact ⟨rfl, [], by simp, by simp, by simp⟩
  | cons d ds ih =>
    intro m hm
    have hbody : watchBody h m d = (statFile h d m).2 := by
      rcases hst : (statFile h d m).1 with _ | ft
      · exact watchBody_notfound h d m hst
      · have htok := statFile_token h tok hfix d m
        rw [hst] at htok
        exact watchBody_unchanged h d m _ ft (Prod.ext hst rfl)
          (hm d (List.mem_cons_self _ _) _ htok.symm)
    obtain ⟨he, hcalls⟩ := statFile_calls h d m
    obtain ⟨-, rest, htr, hrest⟩ := statFile_spec h d m
    have hm' : ∀ x ∈ ds, ∀ t, tok x.hlslPath = some t →
        (watchBody h m d).eng.mTimeChanged x.localName.addr = t := by
      intro x hx t ht
      rw [hbody, he]
      exact hm x (List.mem_cons_of_mem _ hx) t ht
    obtain ⟨a1, seg, a2, a3, a4⟩ := ih (watchBody h m d) hm'
    rw [callsSince_eq htr] at hcalls
    refine ⟨by simp only [List.foldl_cons]; rw [a1, hbody, he],
      .FindFirstFileA d.hlslPath :: rest ++ seg, ?_, ?_, ?_⟩
    · simp only [List.foldl_cons]
      rw [a2, hbody, htr]
      simp
    · have hr : rest.filter Call.isStat = [] :=
        List.filter_eq_nil_iff.2 (fun c hc => by simp [(hrest c hc).1])
      simp [List.filter_cons, Call.isStat, hr, a3]
    · intro c hc
      rcases List.mem_append.1 hc with hc | hc
      · refine ⟨(hcalls c hc).1, (hcalls c hc).2, ?_⟩
        rcases List.mem_cons.1 hc with rfl | hc
        · rfl
        · exact (hrest c hc).2
      · exact a4 c hc

/-- C15. Let the registered descriptors have pairwise distinct name keys, and let the stat
of each path answer the same in both runs (not found, or found with the timestamp
`tok path`), whatever else the hosts `h` and `h2` of the two runs do. Then a second watch
cycle, run after the first in whatever world `w2`, is a no-op: it stats each descriptor
once and makes no read, no compile and no callback call; it ends with an empty event list
and `IsCompiled()` false; and all stored timestamps and both artifact slots are as the
first cycle left them. -/
theorem C15_second_cycle_is_idle (h h2 : Host W) (s : St W) (w2 : W)
    (tok : String → Option Nat)
    (hkeys : (s.eng.mShadersInformation.map (fun x => x.localName.addr)).Nodup)
    (hfix : ∀ (w : W) (path : String),
      (h.FindFirstFileA path w).1.map (fun found => FileTimeToUInt64 found.2) = tok path)
    (hfix2 : ∀ (w : W) (path : String),
      (h2.FindFirstFileA path w).1.map (fun found => FileTimeToUInt64 found.2) = tok path) :
    (∀ c ∈ callsSince (StartWatch h s) (cycleIn h2 w2 (StartWatch h s)),
      c.isRead = false ∧ c.isCompile = false ∧ c.isCallback = false) ∧
    (callsSince (StartWatch h s) (cycleIn h2 w2 (StartWatch h s))).filter Call.isStat
      = s.eng.mShadersInformation.map (fun d => Call.FindFirstFileA d.hlslPath) ∧
    GetCompiledShadersType (cycleIn h2 w2 (StartWatch h s)).eng = [] ∧
    IsCompiled (cycleIn h2 w2 (StartWatch h s)).eng = false ∧
    (cycleIn h2 w2 (StartWatch h s)).eng.mTimeChanged = (StartWatch h s).eng.mTimeChanged ∧
    GetCompiledVertexShader (cycleIn h2 w2 (StartWatch h s)).eng
      = GetCompiledVertexShader (StartWatch h s).eng ∧
    GetCompiledPixelShader (cycleIn h2 w2 (StartWatch h s)).eng
      = GetCompiledPixelShader (StartWatch h s).eng := by
  have hreg := (StartWatch_registry h s).1
  have hstamps : ∀ d ∈ s.eng.mShadersInformation, ∀ t, tok d.hlslPath = some t →
      (StartWatch h s).eng.mTimeChanged d.localName.addr = t := by
    intro d hd t ht
    obtain ⟨done, rest, hsplit⟩ := List.append_of_mem hd
    have hrest : ∀ x ∈ rest, x.localName.addr ≠ d.localName.addr := by
      intro x hx he
      rw [hsplit, List.map_append, List.map_cons, List.nodup_append] at hkeys
      exact (List.nodup_cons.1 hkeys.2.1).1
        (he ▸ List.mem_map_of_mem (fun x => x.localName.addr) hx)
    have htok := statFile_token h tok hfix d (reach h s done)
    rw [ht] at htok
    rcases hst : (statFile h d (reach h s done)).1 with _ | ft
    · rw [hst] at htok
      exact absurd htok (by simp)
    · rw [hst] at htok
      simp only [Option.map_some', Option.some.injEq] at htok
      rw [StartWatch_stamp h s _ done rest d ft hsplit hrest (Prod.ext hst rfl), htok]
  generalize StartWatch h s = s1 at hreg hstamps ⊢
  obtain ⟨a1, seg, a2, a3, a4⟩ := foldl_watchBody_idle h2 tok hfix2 s1.eng.mShadersInformation
    (beginWatch { s1 with world := w2 }) (by rw [hreg]; exact hstamps)
  have hsw : cycleIn h2 w2 s1
      = s1.eng.mShadersInformation.foldl (watchBody h2) (beginWatch { s1 with world := w2 }) := by
    simp only [cycleIn, StartWatch, reach]
    exact notifyCompiled_idle h2 _ (by rw [a1]; rfl)
  have htr : (cycleIn h2 w2 s1).trace = s1.trace ++ seg := by rw [hsw, a2]; rfl
  have heng : (cycleIn h2 w2 s1).eng = (beginWatch { s1 with world := w2 }).eng := by
    rw [hsw, a1]
  refine ⟨by rw [callsSince_eq htr]; exact a4, by rw [callsSince_eq htr, a3, hreg], ?_, ?_, ?_,
    ?_, ?_⟩
  · rw [GetCompiledShadersType, heng]; rfl
  · rw [IsCompiled, heng]; rfl
  · rw [heng]; rfl
  · rw [GetCompiledVertexShader, heng]; rfl
  · rw [GetCompiledPixelShader, heng]; rfl

/-- C15 on a run: the demo engine, over files at the timestamp `7`, for a first cycle in
which the compiler rejects both sources and a second in which it would accept them. -/
theorem C15_second_cycle_is_idle_witness :
    callsSince (StartWatch brokenScript.host demoEngine)
        (cycleIn goodScript.host 0 (StartWatch brokenScript.host demoEngine))
      = [.FindFirstFileA "PixelShader.hlsl", .FindClose 900,
          .FindFirstFileA "VertexShader.hlsl", .FindClose 900] ∧
    GetCompiledShadersType
      (cycleIn goodScript.host 0 (StartWatch brokenScript.host demoEngine)).eng = [] :=
  ⟨by decide,
    (C15_second_cycle_is_idle brokenScript.host goodScript.host demoEngine 0
      (fun _ => some 7) (by decide) (fun _ _ => rfl) (fun _ _ => rfl)).2.2.1⟩

/-! ## C10: a failure of one descriptor does not affect another -/

/-- When the read succeeds, the compiler succeeds and the device creates the shader object
`a`, `CompileFile` returns `true` with `a` in the slot of the descriptor's kind. -/
theorem CompileFile_created (h : Host W) (d : ShaderInformation) (s1 s2 : St W)
    (buf : List Nat) (blob a : Nat) (w3 w4 : W)
    (hread : ReadFile h d.hlslPath s1 = (some buf, s2))
    (hcomp : h.D3DCompile buf d.entryPoint d.shaderVersion s2.world = (.ok blob, w3))
    (hdev : deviceCreate h d.localShaderType d.renderDevices.mRenderDevice blob
      ((compiledShader s2.eng d.localShaderType).elim w3 (fun old => h.Release old w3))
      = (some a, w4)) :
    (CompileFile h d s1).1 = true ∧
    compiledShader (CompileFile h d s1).2.eng d.localShaderType = some a := by
  unfold CompileFile
  rw [hread]
  simp only [hcomp]
  rcases hk : d.localShaderType
  · rw [hk] at hdev
    simp only [deviceCreate, compiledShader, GetCompiledVertexShader] at hdev ⊢
    unfold CreateVertexShader
    rcases hs : s2.eng.mCompiledVertexShader with _ | old
    · rw [hs] at hdev
      simp only [Option.elim] at hdev
      simp [St.call, hs, hdev]
    · rw [hs] at hdev
      simp only [Option.elim] at hdev
      simp [St.call, hs, hdev]
  · rw [hk] at hdev
    simp only [deviceCreate, compiledShader, GetCompiledPixelShader] at hdev ⊢
    unfold CreatePixelShader
    rcases hs : s2.eng.mCompiledPixelShader with _ | old
    · rw [hs] at hdev
      simp only [Option.elim] at hdev
      simp [St.call, hs, hdev]
    · rw [hs] at hdev
      simp only [Option.elim] at hdev
      simp [St.call, hs, hdev]

/-- C10, as stated, fails when the shader object of `d` itself cannot be created. The two
demo descriptors (distinct names, distinct kinds) are registered; the file of the vertex
descriptor stats to the timestamp `8`, not the stored `0`, is read and compiles to the blob
`15`; the device refuses to create the shader object. After the cycle the vertex slot is
empty and no event is recorded. -/
theorem C10_failures_are_isolated_counterexample :
    demoEngine.eng.mShadersInformation = [demoPixel, demoVertex] ∧
    (demoEngine.eng.mShadersInformation.map (fun x => x.localShaderType)).Nodup ∧
    (demoEngine.eng.mShadersInformation.map (fun x => x.localName.addr)).Nodup ∧
    (demoEngine.eng.mShadersInformation.map (fun x => x.localName.text)).Nodup ∧
    (statFile refusingScript.host demoVertex
      (reach refusingScript.host demoEngine [demoPixel])).1 = some ⟨8, 0⟩ ∧
    (reach refusingScript.host demoEngine [demoPixel]).eng.mTimeChanged
      demoVertex.localName.addr ≠ FileTimeToUInt64 ⟨8, 0⟩ ∧
    (ReadFile refusingScript.host demoVertex.hlslPath
      (statFile refusingScript.host demoVertex
        (reach refusingScript.host demoEngine [demoPixel])).2).1 = some [5] ∧
    (refusingScript.host.D3DCompile [5] demoVertex.entryPoint demoVertex.shaderVersion
      (ReadFile refusingScript.host demoVertex.hlslPath
        (statFile refusingScript.host demoVertex
          (reach refusingScript.host demoEngine [demoPixel])).2).2.world).1 = .ok 15 ∧
    compiledShader (StartWatch refusingScript.host demoEngine).eng
      demoVertex.localShaderType = none ∧
    GetCompiledShadersType (StartWatch refusingScript.host demoEngine).eng = [] := by
  refine ⟨by decide, by decide, by decide, by decide, by decide, by decide, by decide, rfl,
    by decide, by decide⟩

/-- C10, amended: the shader object of `d` is also created. In every watch cycle, whatever
the host answers, the loop stats every registered descriptor, once each and in
registration order, and then reaches the callback step: what follows the loop is the
invocation of the callback if one is set and the flag is raised, and nothing otherwise.
And let the registered descriptors have pairwise distinct kinds, and let `d` be one whose
file stats to a timestamp different from the stored one, is read, compiles, and of whose
blob the device creates the shader object `a`. Then, whatever the host answers for the
other descriptors, after the cycle the slot of the kind of `d` holds `a`, created in this
cycle, the event list holds an event of that kind, and a registered callback is invoked,
as the last call of the cycle. -/
theorem C10_failures_are_isolated (h : Host W) (s s1 s2 : St W)
    (done rest : List ShaderInformation) (d : ShaderInformation) (ft : FILETIME)
    (buf : List Nat) (blob a : Nat) (w3 w4 : W) :
    (callsSince s (StartWatch h s)).filter Call.isStat
      = s.eng.mShadersInformation.map (fun x => Call.FindFirstFileA x.hlslPath) ∧
    callsSince (reach h s s.eng.mShadersInformation) (StartWatch h s)
      = (match s.eng.mCustomCallbackWhenShadersIsCompiled with
        | some fn =>
          if IsCompiled (reach h s s.eng.mShadersInformation).eng then
            [.Callback fn (observe (reach h s s.eng.mShadersInformation).eng)]
          else []
        | none => []) ∧
    (s.eng.mShadersInformation = done ++ d :: rest →
      (s.eng.mShadersInformation.map (fun x => x.localShaderType)).Nodup →
      statFile h d (reach h s done) = (some ft, s1) →
      (reach h s done).eng.mTimeChanged d.localName.addr ≠ FileTimeToUInt64 ft →
      ReadFile h d.hlslPath s1 = (some buf, s2) →
      h.D3DCompile buf d.entryPoint d.shaderVersion s2.world = (.ok blob, w3) →
      deviceCreate h d.localShaderType d.renderDevices.mRenderDevice blob
        ((compiledShader s2.eng d.localShaderType).elim w3 (fun old => h.Release old w3))
        = (some a, w4) →
      compiledShader (StartWatch h s).eng d.localShaderType = some a ∧
      (∃ c ∈ callsSince s (StartWatch h s), c.creates d.localShaderType a = true) ∧
      (⟨d.localShaderType⟩ : CompiledQueue) ∈ GetCompiledShadersType (StartWatch h s).eng ∧
      ∀ fn, s.eng.mCustomCallbackWhenShadersIsCompiled = some fn →
        (StartWatch h s).trace.getLast?
          = some (.Callback fn (observe (StartWatch h s).eng))) := by
  obtain ⟨r1, r2, -, seg, r4, r5, -⟩ := reach_summary h s
  refine ⟨?_, ?_, ?_⟩
  · obtain ⟨sg, b1, b2, -⟩ := notifyCompiled_calls h (reach h s s.eng.mShadersInformation)
    have htr : (StartWatch h s).trace = s.trace ++ (seg ++ sg) := by
      unfold StartWatch
      rw [b1, r4, List.append_assoc]
    rw [callsSince_eq htr, List.filter_append, r5, b2, List.append_nil]
  · unfold StartWatch notifyCompiled
    rw [r1]
    rcases s.eng.mCustomCallbackWhenShadersIsCompiled with _ | fn
    · simp [callsSince]
    · by_cases hflag : IsCompiled (reach h s s.eng.mShadersInformation).eng = true
      · simp [hflag, callsSince, St.call]
      · simp [hflag, callsSince]
  · intro hreg hkinds hstat hne hread hcomp hdev
    have hrest : ∀ x ∈ rest, x.localShaderType ≠ d.localShaderType := by
      intro x hx he
      rw [hreg, List.map_append, List.map_cons, List.nodup_append] at hkinds
      have := (List.nodup_cons.1 hkinds.2.1).1
      exact this (he ▸ List.mem_map_of_mem (fun x => x.localShaderType) hx)
    have hs1 : s1.eng = (reach h s done).eng := statFile_eng_eq h d _ s1 _ hstat
    obtain ⟨hct, hcs⟩ := CompileFile_created h d s1 s2 buf blob a w3 w4 hread hcomp hdev
    have hd : compiledAt h (reach h s done) d = true := by
      have hb : (s1.eng.mTimeChanged d.localName.addr != FileTimeToUInt64 ft) = true := by
        rw [hs1]; simpa using hne
      simp [compiledAt, hstat, hb, hct]
    have hslot : compiledShader (watchBody h (reach h s done) d).eng d.localShaderType
        = some a := by
      rw [watchBody_changed h d _ s1 ft hstat hne]
      cases hk : d.localShaderType <;>
        simpa [hk, compiledShader, GetCompiledVertexShader, GetCompiledPixelShader] using hcs
    obtain ⟨-, -, -, ⟨t1, e1, -⟩, -, -, b7, b8⟩ := watchBody_spec h (reach h s done) d
    obtain ⟨a', ha', c, hc1, hc2⟩ := b8 hd
    have haa : a' = a := Option.some.inj (ha'.symm.trans hslot)
    subst haa
    obtain ⟨-, -, -, f4, l, f5⟩ :=
      foldl_watchBody_frame h rest (watchBody h (reach h s done) d)
    have hsplit := StartWatch_split h s done rest d hreg
    have heng : (StartWatch h s).eng
        = (rest.foldl (watchBody h) (watchBody h (reach h s done) d)).eng := by
      rw [hsplit, notifyCompiled_eng]
    have hmem : d ∈ compiledInCycle h s :=
      (mem_compiledFrom h d s.eng.mShadersInformation (beginWatch s)).2
        ⟨done, rest, hreg, hd⟩
    have hflag : (reach h s s.eng.mShadersInformation).eng.bIsCompiled = true := by
      rw [r2]
      cases hc : compiledInCycle h s with
      | nil => rw [hc] at hmem; exact absurd hmem (List.not_mem_nil _)
      | cons x xs => rfl
    refine ⟨?_, ⟨c, ?_, hc2⟩, ?_, ?_⟩
    · rw [heng, f4 _ hrest]
      exact hslot
    · refine callsSince_mid (s := s) ?_ ⟨_, e1⟩ ?_ hc1
      · obtain ⟨sg, hsg⟩ := foldl_watchBody_ext h done (beginWatch s)
        exact ⟨sg, hsg⟩
      · obtain ⟨sg1, hsg1⟩ := foldl_watchBody_ext h rest (watchBody h (reach h s done) d)
        obtain ⟨sg2, hsg2⟩ := notifyCompiled_trace h
          (rest.foldl (watchBody h) (watchBody h (reach h s done) d))
        exact ⟨sg1 ++ sg2, by rw [hsplit, hsg2, hsg1, List.append_assoc]⟩
    · rw [GetCompiledShadersType, heng, f5, b7, hd]
      simp
    · intro fn hcb
      rw [hcb] at r1
      unfold StartWatch
      rw [notifyCompiled_fire h _ fn r1 hflag]
      simp [St.call]

/-- C10, amended, on three runs of the demo engine. When the compiler rejects both
sources, both descriptors are statted all the same and nothing follows the loop. When it
rejects the pixel source only, the vertex shader, met second, is stored. When it accepts
both, the pixel shader, met first, is stored and still is after the vertex descriptor was
processed. -/
theorem C10_failures_are_isolated_witness :
    (callsSince demoEngine (StartWatch brokenScript.host demoEngine)).filter Call.isStat
      = [.FindFirstFileA "PixelShader.hlsl", .FindFirstFileA "VertexShader.hlsl"] ∧
    compiledAt pixelBrokenScript.host (reach pixelBrokenScript.host demoEngine []) demoPixel
      = false ∧
    compiledShader (StartWatch pixelBrokenScript.host demoEngine).eng .VertexShader
      = some 1011 ∧
    compiledShader (StartWatch goodScript.host demoEngine).eng .PixelShader = some 1012 ∧
    GetCompiledShadersType (StartWatch goodScript.host demoEngine).eng
      = [⟨.PixelShader⟩, ⟨.VertexShader⟩] :=
  ⟨(C10_failures_are_isolated brokenScript.host demoEngine demoEngine demoEngine [] []
      demoPixel ⟨0, 0⟩ [] 0 0 0 0).1,
    by decide,
    ((C10_failures_are_isolated pixelBrokenScript.host demoEngine
      (statFile pixelBrokenScript.host demoVertex
        (reach pixelBrokenScript.host demoEngine [demoPixel])).2
      (ReadFile pixelBrokenScript.host demoVertex.hlslPath
        (statFile pixelBrokenScript.host demoVertex
          (reach pixelBrokenScript.host demoEngine [demoPixel])).2).2
      [demoPixel] [] demoVertex ⟨7, 0⟩ [1, 1, 1] 11 1011
      (ReadFile pixelBrokenScript.host demoVertex.hlslPath
        (statFile pixelBrokenScript.host demoVertex
          (reach pixelBrokenScript.host demoEngine [demoPixel])).2).2.world
      (ReadFile pixelBrokenScript.host demoVertex.hlslPath
        (statFile pixelBrokenScript.host demoVertex
          (reach pixelBrokenScript.host demoEngine [demoPixel])).2).2.world).2.2
      (by decide) (by decide) rfl (by decide) rfl rfl rfl).1,
    ((C10_failures_are_isolated goodScript.host demoEngine
      (statFile goodScript.host demoPixel (reach goodScript.host demoEngine [])).2
      (ReadFile goodScript.host demoPixel.hlslPath
        (statFile goodScript.host demoPixel (reach goodScript.host demoEngine [])).2).2
      [] [demoVertex] demoPixel ⟨7, 0⟩ [2, 2, 2] 12 1012
      (ReadFile goodScript.host demoPixel.hlslPath
        (statFile goodScript.host demoPixel (reach goodScript.host demoEngine [])).2).2.world
      (ReadFile goodScript.host demoPixel.hlslPath
        (statFile goodScript.host demoPixel (reach goodScript.host demoEngine [])).2).2.world).2.2
      (by decide) (by decide) rfl (by decide) rfl rfl rfl).1,
    by decide⟩

end HotReload
